import Mathlib

/-!
The package zlog: a logging facade over the zap engine.

Shallow embedding of `src/log.go` (package `zlog`).

The facade is a thin wrapper: every decision it takes itself lives in
`newZapLogger`, `Init`, `New` and in which handle (`zl` or `sl`) each call is
delegated to.  What a delegated call then does is decided by the engine
`go.uber.org/zap`, an external dependency of the repository.  The parts of the
engine that the facade's behaviour rests on are embedded here as well, each
under the name it has in the engine and with the engine file it comes from in
its doc comment: level parsing (`zapcore/level.go`), configuration and build
(`config.go`, `encoder.go`, `sink.go`, `writer.go`), logger options
(`options.go`), naming, sugaring and entry checking (`logger.go`, `sugar.go`,
`zapcore/entry.go`), and the sampler (`zapcore/sampler.go`).

Conventions.
* Go state is passed explicitly.  The sampler counters that `zl` and `sl` of
  one facade share live in a heap (`Heap`), addressed by the reference stored
  in the engine core.
* A Go call ends in one of four ways (`Outcome`): it returns, it panics (a
  panic unwinds, runs deferred calls and can be recovered), it exits the
  process, or it blocks forever on a mutex.
* Wall-clock time is an input of each logging call, in Unix nanoseconds.
* Dynamic values (`any`, `Field`) are carried in rendered form, as strings.
-/

namespace zlog

/-! ## zapcore: levels -/

namespace zapcore

/-- The type `zapcore.Level` (zapcore/level.go): an `int8` with the constants
`DebugLevel = -1`, `InfoLevel = 0`, ..., `FatalLevel = 5`. -/
inductive Level where
  | DebugLevel
  | InfoLevel
  | WarnLevel
  | ErrorLevel
  | DPanicLevel
  | PanicLevel
  | FatalLevel
  deriving DecidableEq, Repr

/-- The numeric value of a level constant. -/
def Level.toInt : Level → Int
  | .DebugLevel => -1
  | .InfoLevel => 0
  | .WarnLevel => 1
  | .ErrorLevel => 2
  | .DPanicLevel => 3
  | .PanicLevel => 4
  | .FatalLevel => 5

/-- The method `Level.Enabled` (zapcore/level.go): `return lvl >= l`. -/
def Level.Enabled (l lvl : Level) : Bool :=
  decide (l.toInt ≤ lvl.toInt)

/-- The method `Level.CapitalString` (zapcore/level.go). -/
def Level.CapitalString : Level → String
  | .DebugLevel => "DEBUG"
  | .InfoLevel => "INFO"
  | .WarnLevel => "WARN"
  | .ErrorLevel => "ERROR"
  | .DPanicLevel => "DPANIC"
  | .PanicLevel => "PANIC"
  | .FatalLevel => "FATAL"

/-- The helper `Level.unmarshalText` (zapcore/level.go): the `switch` over the
accepted spellings; `none` is its `return false`. -/
def Level.unmarshalText (text : String) : Option Level :=
  if text = "debug" ∨ text = "DEBUG" then some .DebugLevel
  else if text = "info" ∨ text = "INFO" ∨ text = "" then some .InfoLevel
  else if text = "warn" ∨ text = "WARN" then some .WarnLevel
  else if text = "error" ∨ text = "ERROR" then some .ErrorLevel
  else if text = "dpanic" ∨ text = "DPANIC" then some .DPanicLevel
  else if text = "panic" ∨ text = "PANIC" then some .PanicLevel
  else if text = "fatal" ∨ text = "FATAL" then some .FatalLevel
  else none

/-- One rune of Go's `bytes.ToLower`: ASCII capitals, and the two non-ASCII
runes whose lower case is an ASCII letter (U+0130 to `i`, U+212A to `k`).
Every other rune lowers to a rune that is not an ASCII letter either, and is
left as it is: comparing the result with the ASCII level names is unaffected. -/
def toLowerRune (c : Char) : Char :=
  if 65 ≤ c.toNat ∧ c.toNat ≤ 90 then Char.ofNat (c.toNat + 32)
  else if c.toNat = 304 then 'i'
  else if c.toNat = 8490 then 'k'
  else c

/-- Go's `bytes.ToLower` on a text. -/
def ToLower (text : String) : String :=
  String.mk (text.data.map toLowerRune)

/-- The method `Level.UnmarshalText` (zapcore/level.go):
`if !l.unmarshalText(text) && !l.unmarshalText(bytes.ToLower(text))` it returns
the error "unrecognized level" (here `none`); otherwise the level is set. -/
def Level.UnmarshalText (text : String) : Option Level :=
  match Level.unmarshalText text with
  | some l => some l
  | none => Level.unmarshalText (ToLower text)

/-- The two level encoders `newZapLogger` chooses between
(zapcore/encoder.go). -/
inductive LevelEncoder where
  | CapitalLevelEncoder
  | CapitalColorLevelEncoder
  deriving DecidableEq, Repr

/-- The colour of a level, as its ANSI code (zapcore/level_strings.go and
internal/color): debug magenta 35, info blue 34, warn yellow 33, error and
above red 31. -/
def levelColor : Level → Nat
  | .DebugLevel => 35
  | .InfoLevel => 34
  | .WarnLevel => 33
  | .ErrorLevel => 31
  | .DPanicLevel => 31
  | .PanicLevel => 31
  | .FatalLevel => 31

/-- The escape character that opens an ANSI colour-control sequence. -/
def escape : Char := Char.ofNat 27

/-- What a level encoder appends for a level: `CapitalString` as it is, or
wrapped by `Color.Add` as `ESC[<code>m ... ESC[0m`. -/
def LevelEncoder.render : LevelEncoder → Level → String
  | .CapitalLevelEncoder, l => l.CapitalString
  | .CapitalColorLevelEncoder, l =>
      String.mk [escape] ++ "[" ++ toString (levelColor l) ++ "m" ++ l.CapitalString
        ++ String.mk [escape] ++ "[0m"

/-- The struct `zapcore.EncoderConfig`, with the fields `newZapLogger` sets.
The time, duration and caller encoders are functions; they are carried by
name, a nil function by the empty name. -/
structure EncoderConfig where
  MessageKey : String
  LevelKey : String
  TimeKey : String
  NameKey : String
  CallerKey : String
  StacktraceKey : String
  LineEnding : String
  EncodeLevel : LevelEncoder
  EncodeTime : String
  EncodeDuration : String
  EncodeCaller : String
  deriving DecidableEq, Repr

/-- The sampler wrapped around the core by `NewSamplerWithOptions`
(zapcore/sampler.go): its parameters and the reference to its counters. -/
structure Sampler where
  counts : Nat
  tick : Nat
  first : Nat
  thereafter : Nat
  deriving DecidableEq, Repr

/-- The engine core: the `ioCore` of `zapcore.NewCore(enc, sink, level)`
(zapcore/core.go), and the sampler wrapped around it, if any. -/
structure Core where
  encoding : String
  encoderConfig : EncoderConfig
  out : List String
  level : Level
  sampler : Option Sampler
  deriving DecidableEq, Repr

/-- The method `ioCore.Enabled`, through which the sampler answers too: the
atomic level's `Enabled`. -/
def Core.Enabled (c : Core) (lvl : Level) : Bool :=
  c.level.Enabled lvl

end zapcore

open zapcore (Level LevelEncoder EncoderConfig Core Sampler)
open zapcore.Level (DebugLevel InfoLevel WarnLevel ErrorLevel DPanicLevel PanicLevel FatalLevel)

/-! ## Options -/

/-- Modelled from the spec: the struct `Options`, declared in a file of the
repository that is not under src/.  The fields are those of §3, under the
names `newZapLogger` reads them by. -/
structure Options where
  Name : String
  Level : String
  Format : String
  EnableColor : Bool
  DisableCaller : Bool
  DisableStacktrace : Bool
  Development : Bool
  OutputPaths : List String
  ErrorOutputPaths : List String
  deriving DecidableEq, Repr

/-- Modelled from the spec: the constant `consoleFormat`, declared outside
src/; §4.2 step 2 gives its value, `format == "console"`. -/
def consoleFormat : String := "console"

/-- Modelled from the spec: the constructor `NewOptions`, declared outside
src/; the defaults are those of §4.1. -/
def NewOptions : Options :=
  { Name := ""
    Level := "info"
    Format := "console"
    EnableColor := true
    DisableCaller := false
    DisableStacktrace := false
    Development := false
    OutputPaths := ["stdout"]
    ErrorOutputPaths := ["stderr"] }

/-! ## Go control flow -/

/-- Why an engine build fails (config.go, encoder.go, writer.go). -/
inductive BuildError where
  | missingEncodeTime
  | noEncoderNameSpecified
  | noEncoderRegistered (name : String)
  | openSinks (failed : List String)
  deriving DecidableEq, Repr

/-- The value a Go panic carries: the build error of `panic(err)` in
`newZapLogger`, or the message of the engine's `WriteThenPanic`. -/
inductive PanicValue where
  | err (e : BuildError)
  | msg (m : String)
  deriving DecidableEq, Repr

/-- How a Go call ends: it returns; it panics (the panic unwinds the stack,
runs the deferred calls on its way and can be stopped by `recover`); it exits
the process (`os.Exit`, no deferred call runs, nothing can stop it); or it
blocks forever (a `Lock` on a mutex that is never released). -/
inductive Outcome (α : Type) where
  | returned (a : α)
  | panicked (v : PanicValue)
  | exited (code : Nat)
  | blocked
  deriving DecidableEq, Repr

/-- The value a call returned, if it returned. -/
def Outcome.value? {α : Type} : Outcome α → Option α
  | .returned a => some a
  | _ => none

/-! ## zapcore: sampler counters -/

namespace zapcore

set_option linter.dupNamespace false in
/-- The struct `counter` (zapcore/sampler.go): `resetAt` in Unix nanoseconds
and the running count. -/
structure counter where
  resetAt : Nat
  counter : Nat
  deriving DecidableEq, Repr

/-- The table `counters`, `[_numLevels][_countersPerLevel]counter`, kept
sparse: an absent cell is the zero counter. -/
abbrev counters : Type := List ((Nat × Nat) × counter)

/-- Read cell `[i][j]`. -/
def counters.load (cs : counters) (i j : Nat) : counter :=
  match cs.lookup (i, j) with
  | some c => c
  | none => { resetAt := 0, counter := 0 }

/-- Write cell `[i][j]`. -/
def counters.store (cs : counters) (i j : Nat) (c : counter) : counters :=
  ((i, j), c) :: cs.filter (fun e => decide (e.1 ≠ (i, j)))

/-- The UTF-8 bytes of a rune: Go strings are byte sequences. -/
def utf8 (c : Char) : List Nat :=
  let n := c.toNat
  if n < 128 then [n]
  else if n < 2048 then [192 + n / 64, 128 + n % 64]
  else if n < 65536 then [224 + n / 4096, 128 + (n / 64) % 64, 128 + n % 64]
  else [240 + n / 262144, 128 + (n / 4096) % 64, 128 + (n / 64) % 64, 128 + n % 64]

/-- The hash `fnv32a` (zapcore/sampler.go), on `uint32`:
`hash ^= uint32(s[i]); hash *= prime32` from `offset32`. -/
def fnv32a (s : String) : Nat :=
  (s.data.flatMap utf8).foldl (fun hash b => ((hash ^^^ b) * 16777619) % 2 ^ 32) 2166136261

/-- The constant `_countersPerLevel`. -/
def _countersPerLevel : Nat := 4096

/-- The row of a level in the table: `lvl - _minLevel`. -/
def levelIndex (lvl : Level) : Nat :=
  (lvl.toInt + 1).toNat

end zapcore

/-- The heap of sampler counter tables; a sampler refers to its table by
position. -/
abbrev Heap : Type := List zapcore.counters

/-- What the process can reach: which destinations other than the standard
streams can be opened, and which encodings have been registered on top of the
engine's own two. -/
structure Env where
  canOpen : String → Bool
  registered : List String

/-! ## zap: configuration, logger, build -/

namespace zap

/-- The struct `zap.SamplingConfig` (config.go). -/
structure SamplingConfig where
  Initial : Nat
  Thereafter : Nat
  deriving DecidableEq, Repr

/-- The struct `zap.Config` (config.go), with the fields `newZapLogger` sets;
`Level` is the value of the atomic level. -/
structure Config where
  Level : zapcore.Level
  Development : Bool
  DisableCaller : Bool
  DisableStacktrace : Bool
  Sampling : Option SamplingConfig
  Encoding : String
  EncoderConfig : zapcore.EncoderConfig
  OutputPaths : List String
  ErrorOutputPaths : List String
  deriving DecidableEq, Repr

/-- The struct `zap.Logger` (logger.go).  `addStack` is a level enabler that
may lie above every level (`FatalLevel + 1`), so it is kept as a number. -/
structure Logger where
  core : zapcore.Core
  development : Bool
  addCaller : Bool
  name : String
  errorOutput : List String
  addStack : Int
  callerSkip : Nat
  deriving DecidableEq, Repr

/-- The struct `zap.SugaredLogger` (sugar.go). -/
structure SugaredLogger where
  base : Logger
  deriving DecidableEq, Repr

/-- The logger options used by `Config.Build` and by `newZapLogger`
(options.go).  `WrapCore` is only ever given the function that wraps the core
in a sampler, so it carries that sampler's tick, first and thereafter. -/
inductive LoggerOption where
  | ErrorOutput (w : List String)
  | Development
  | AddCaller
  | AddStacktrace (lvl : zapcore.Level)
  | AddCallerSkip (skip : Nat)
  | WrapCore (tick first thereafter : Nat)
  deriving DecidableEq, Repr

/-- What an option does to a logger (options.go); wrapping the core allocates
the sampler's counters (`newCounters()`). -/
def LoggerOption.apply (opt : LoggerOption) (log : Logger) (h : Heap) : Logger × Heap :=
  match opt with
  | .ErrorOutput w => ({ log with errorOutput := w }, h)
  | .Development => ({ log with development := true }, h)
  | .AddCaller => ({ log with addCaller := true }, h)
  | .AddStacktrace lvl => ({ log with addStack := lvl.toInt }, h)
  | .AddCallerSkip skip => ({ log with callerSkip := log.callerSkip + skip }, h)
  | .WrapCore tick first thereafter =>
      ({ log with core := { log.core with
          sampler := some { counts := h.length, tick := tick, first := first,
                            thereafter := thereafter } } },
       h ++ [[]])

/-- The method `Logger.WithOptions` (logger.go): the options are applied to a
clone, in order. -/
def Logger.WithOptions (log : Logger) (opts : List LoggerOption) (h : Heap) : Logger × Heap :=
  opts.foldl (fun (s : Logger × Heap) opt => opt.apply s.1 s.2) (log, h)

/-- The function `zap.New` (logger.go): error output on standard error,
`addStack: zapcore.FatalLevel + 1`, then the options. -/
def New (core : zapcore.Core) (opts : List LoggerOption) (h : Heap) : Logger × Heap :=
  Logger.WithOptions
    { core := core, development := false, addCaller := false, name := "",
      errorOutput := ["stderr"], addStack := FatalLevel.toInt + 1, callerSkip := 0 }
    opts h

/-- The method `Logger.Named` (logger.go): the logger itself for the empty
name, else a clone whose name is the given one, joined by a dot to the name
the logger already has. -/
def Logger.Named (log : Logger) (s : String) : Logger :=
  if s = "" then log
  else if log.name = "" then { log with name := s }
  else { log with name := log.name ++ "." ++ s }

/-- The method `Logger.Sugar` (logger.go): a clone with `callerSkip += 2`. -/
def Logger.Sugar (log : Logger) : SugaredLogger :=
  { base := { log with callerSkip := log.callerSkip + 2 } }

/-- The function `newEncoder` (encoder.go): the encoding must be named and
registered; `console` and `json` always are. -/
def newEncoder (env : Env) (name : String) (encoderConfig : zapcore.EncoderConfig) :
    Except BuildError Unit :=
  if encoderConfig.TimeKey ≠ "" ∧ encoderConfig.EncodeTime = "" then
    .error .missingEncodeTime
  else if name = "" then .error .noEncoderNameSpecified
  else if name = "console" ∨ name = "json" ∨ name ∈ env.registered then .ok ()
  else .error (.noEncoderRegistered name)

/-- Whether `newSink` opens a destination (sink.go): the standard streams
always, anything else as the environment allows. -/
def newSink (env : Env) (path : String) : Bool :=
  path = "stdout" || path = "stderr" || env.canOpen path

/-- The function `Open` (writer.go): every path is tried, and the call fails
with the paths that did not open if there is one. -/
def Open (env : Env) (paths : List String) : Except BuildError (List String) :=
  let failed := paths.filter (fun p => !newSink env p)
  if failed = [] then .ok paths else .error (.openSinks failed)

/-- The method `Config.openSinks` (config.go): the outputs, then the error
outputs. -/
def Config.openSinks (env : Env) (cfg : Config) :
    Except BuildError (List String × List String) :=
  match Open env cfg.OutputPaths with
  | .error e => .error e
  | .ok sink =>
    match Open env cfg.ErrorOutputPaths with
    | .error e => .error e
    | .ok errSink => .ok (sink, errSink)

/-- The method `Config.buildOptions` (config.go). -/
def Config.buildOptions (cfg : Config) (errSink : List String) : List LoggerOption :=
  let opts := [LoggerOption.ErrorOutput errSink]
  let opts := if cfg.Development then opts ++ [.Development] else opts
  let opts := if !cfg.DisableCaller then opts ++ [.AddCaller] else opts
  let stackLevel := if cfg.Development then WarnLevel else ErrorLevel
  let opts := if !cfg.DisableStacktrace then opts ++ [.AddStacktrace stackLevel] else opts
  match cfg.Sampling with
  | some scfg => opts ++ [.WrapCore 1000000000 scfg.Initial scfg.Thereafter]
  | none => opts

/-- The method `Config.Build` (config.go): encoder, sinks, `New` with the
options of the configuration, then the options of the caller on top. -/
def Config.Build (env : Env) (cfg : Config) (opts : List LoggerOption) (h : Heap) :
    Except BuildError (Logger × Heap) :=
  match newEncoder env cfg.Encoding cfg.EncoderConfig with
  | .error e => .error e
  | .ok _ =>
    match cfg.openSinks env with
    | .error e => .error e
    | .ok (sink, errSink) =>
      let core : zapcore.Core :=
        { encoding := cfg.Encoding, encoderConfig := cfg.EncoderConfig, out := sink,
          level := cfg.Level, sampler := none }
      let r := New core (cfg.buildOptions errSink) h
      .ok (if opts.length > 0 then r.1.WithOptions opts r.2 else r)

end zap

/-! ## zap: checking and writing an entry -/

/-- A Go value of type `any`, in rendered form; whether it is a string is kept,
since `getMessage` asks. -/
inductive Any where
  | str (s : String)
  | val (rendered : String)
  deriving DecidableEq, Repr

/-- Modelled from the spec: the type `Field`, declared outside src/; §4.3 has
the fields of a structured call as typed key/value pairs (the type is the
engine's `zap.Field`). -/
structure Field where
  Key : String
  Value : Any
  deriving DecidableEq, Repr

/-- The formatting functions of Go's `fmt` that the sugared logger calls. -/
structure Fmt where
  Sprintf : String → List Any → String
  Sprint : List Any → String
  Sprintln : List Any → String

namespace zapcore

/-- The struct `zapcore.Entry` (zapcore/entry.go).  `Caller` is the number of
frames above `Logger.check` at which the caller was taken, when it was taken;
`Stack` tells whether a stack trace was attached. -/
structure Entry where
  Level : Level
  Time : Nat
  LoggerName : String
  Message : String
  Caller : Option Nat
  Stack : Bool
  deriving DecidableEq, Repr

/-- The terminal behaviours of a checked entry (zapcore/entry.go). -/
inductive CheckWriteAction where
  | WriteThenNoop
  | WriteThenPanic
  | WriteThenFatal
  deriving DecidableEq, Repr

/-- The struct `zapcore.CheckedEntry`; a nil pointer is `none` of the option
type. -/
structure CheckedEntry where
  Entry : Entry
  ErrorOutput : List String
  after : CheckWriteAction
  cores : List Core
  deriving DecidableEq, Repr

/-- The method `CheckedEntry.AddCore`: a nil entry is created first. -/
def CheckedEntry.AddCore (ce : Option CheckedEntry) (ent : zapcore.Entry) (core : Core) :
    Option CheckedEntry :=
  match ce with
  | none => some { Entry := ent, ErrorOutput := [], after := .WriteThenNoop, cores := [core] }
  | some c => some { c with cores := c.cores ++ [core] }

/-- The method `CheckedEntry.After`: a nil entry is created first. -/
def CheckedEntry.After (ce : Option CheckedEntry) (ent : zapcore.Entry)
    (hook : CheckWriteAction) : CheckedEntry :=
  match ce with
  | none => { Entry := ent, ErrorOutput := [], after := hook, cores := [] }
  | some c => { c with after := hook }

/-- The method `counter.IncCheckReset` (zapcore/sampler.go), run by one
goroutine: inside the tick the count goes up by one, else it restarts at 1 and
the tick restarts at `t`. -/
def counter.IncCheckReset (c : zapcore.counter) (t tick : Nat) : Nat × zapcore.counter :=
  if c.resetAt > t then (c.counter + 1, { c with counter := c.counter + 1 })
  else (1, { resetAt := t + tick, counter := 1 })

/-- The method `ioCore.Check` (zapcore/core.go). -/
def Core.ioCheck (c : Core) (ent : Entry) (ce : Option CheckedEntry) : Option CheckedEntry :=
  if c.Enabled ent.Level then CheckedEntry.AddCore ce ent { c with sampler := none } else ce

/-- The method `Core.Check` of the built core: `sampler.Check`
(zapcore/sampler.go) when the core is wrapped in a sampler, `ioCore.Check`
otherwise.  The sampler counts the entry under its level and the hash of its
message, and drops it when `n > first` and `(n - first) % thereafter != 0`. -/
def Core.Check (c : Core) (ent : Entry) (ce : Option CheckedEntry) (h : Heap) :
    Option CheckedEntry × Heap :=
  match c.sampler with
  | none => (c.ioCheck ent ce, h)
  | some s =>
    if !c.Enabled ent.Level then (ce, h)
    else
      let cs := h.getD s.counts []
      let i := levelIndex ent.Level
      let j := fnv32a ent.Message % _countersPerLevel
      let r := (cs.load i j).IncCheckReset ent.Time s.tick
      let h1 := h.set s.counts (cs.store i j r.2)
      if r.1 > s.first ∧ (s.thereafter = 0 ∨ (r.1 - s.first) % s.thereafter ≠ 0) then (ce, h1)
      else (c.ioCheck ent ce, h1)

end zapcore

/-- A record that reached the destinations: the entry, its fields, the
destinations of the core that wrote it, and the level as the core's level
encoder renders it. -/
structure Record where
  entry : zapcore.Entry
  fields : List Field
  out : List String
  level : String
  deriving DecidableEq, Repr

/-- What a logging call does that can be observed, one event per step: a
record reaches the destinations, the call panics, or it exits the process. -/
inductive Event where
  | write (r : Record)
  | panic (v : PanicValue)
  | exit (code : Nat)
  deriving DecidableEq, Repr

/-- The records a call wrote, in order. -/
def written (events : List Event) : List Record :=
  events.filterMap (fun e => match e with
    | .write r => some r
    | _ => none)

/-- How a call ended: by the panic or the exit its events end with, or by
returning. -/
def outcome (events : List Event) : Outcome Unit :=
  match events.getLast? with
  | some (.panic v) => .panicked v
  | some (.exit code) => .exited code
  | _ => .returned ()

namespace zapcore

/-- The method `ioCore.Write`: the entry is encoded and written to `out`. -/
def Core.Write (c : Core) (ent : Entry) (fields : List Field) : Record :=
  { entry := ent, fields := fields, out := c.out,
    level := c.encoderConfig.EncodeLevel.render ent.Level }

/-- The method `CheckedEntry.Write` (zapcore/entry.go): every core of the
entry writes it, and after that the terminal behaviour runs: `WriteThenPanic`
panics with the message, `WriteThenFatal` exits with status 1. -/
def CheckedEntry.Write (ce : CheckedEntry) (fields : List Field) : List Event :=
  ce.cores.map (fun c => Event.write (c.Write ce.Entry fields)) ++
    (match ce.after with
      | .WriteThenNoop => []
      | .WriteThenPanic => [Event.panic (.msg ce.Entry.Message)]
      | .WriteThenFatal => [Event.exit 1])

end zapcore

namespace zap

/-- The method `Logger.check` (logger.go).  Below `DPanicLevel` a disabled
level returns nil at once; the core then checks the entry; `PanicLevel` and
`FatalLevel` get their terminal behaviour whether or not the entry will be
written (`onFatal` is unset, so it is `WriteThenFatal`), `DPanicLevel` gets it
in development; an entry that will be written is annotated with the caller
and, where `addStack` is enabled for its level, with the stack. -/
def Logger.check (log : Logger) (lvl : zapcore.Level) (msg : String) (now : Nat) (h : Heap) :
    Option zapcore.CheckedEntry × Heap :=
  if lvl.toInt < DPanicLevel.toInt ∧ log.core.Enabled lvl = false then (none, h)
  else
    let ent : zapcore.Entry :=
      { Level := lvl, Time := now, LoggerName := log.name, Message := msg,
        Caller := none, Stack := false }
    let r := log.core.Check ent none h
    let willWrite := r.1.isSome
    let ce : Option zapcore.CheckedEntry :=
      match lvl with
      | .PanicLevel => some (zapcore.CheckedEntry.After r.1 ent .WriteThenPanic)
      | .FatalLevel => some (zapcore.CheckedEntry.After r.1 ent .WriteThenFatal)
      | .DPanicLevel =>
          if log.development then some (zapcore.CheckedEntry.After r.1 ent .WriteThenPanic)
          else r.1
      | _ => r.1
    if !willWrite then (ce, r.2)
    else
      match ce with
      | none => (none, r.2)
      | some c =>
        let addStack := decide (log.addStack ≤ c.Entry.Level.toInt)
        let caller := if log.addCaller then some (log.callerSkip + 2) else c.Entry.Caller
        (some { c with
            ErrorOutput := log.errorOutput
            Entry := { c.Entry with Caller := caller, Stack := addStack } },
         r.2)

/-- The methods `Logger.Debug`, `Info`, `Warn`, `Error`, `Panic`, `Fatal`
(logger.go), which differ in the level only:
`if ce := log.check(lvl, msg); ce != nil \x7b ce.Write(fields...) \x7d`. -/
def Logger.log (log : Logger) (lvl : zapcore.Level) (msg : String) (fields : List Field)
    (now : Nat) (h : Heap) : List Event × Heap :=
  match log.check lvl msg now h with
  | (some ce, h1) => (ce.Write fields, h1)
  | (none, h1) => ([], h1)

/-- The function `getMessage` (sugar.go). -/
def getMessage (fmt : Fmt) (template : String) (fmtArgs : List Any) : String :=
  if fmtArgs.length = 0 then template
  else if template ≠ "" then fmt.Sprintf template fmtArgs
  else
    match fmtArgs with
    | [.str s] => s
    | _ => fmt.Sprint fmtArgs

/-- The function `getMessageln` (sugar.go): `Sprintln` without its final
newline. -/
def getMessageln (fmt : Fmt) (fmtArgs : List Any) : String :=
  let msg := fmt.Sprintln fmtArgs
  String.mk (msg.data.take (msg.length - 1))

/-- The method `SugaredLogger.sweetenFields` (sugar.go) on a well-formed
context: each key with its value becomes a field.  The context is given as
pairs with string keys; on a sequence that is not of that shape (a dangling
key, a key that is no string) the engine logs a diagnostic of its own, which
is not part of this embedding. -/
def SugaredLogger.sweetenFields (_s : SugaredLogger) (context : List (String × Any)) :
    List Field :=
  context.map (fun kv => { Key := kv.1, Value := kv.2 })

/-- The method `SugaredLogger.log` (sugar.go), behind `Debugf` ... `Fatalf`
(`s.log(lvl, template, args, nil)`) and `Debugw` ... `Fatalw`
(`s.log(lvl, msg, nil, keysAndValues)`): nothing below `DPanicLevel` when the
level is disabled; else the message is formatted and the base logger checks
and writes the entry. -/
def SugaredLogger.log (s : SugaredLogger) (fmt : Fmt) (lvl : zapcore.Level)
    (template : String) (fmtArgs : List Any) (context : List (String × Any))
    (now : Nat) (h : Heap) : List Event × Heap :=
  if lvl.toInt < DPanicLevel.toInt ∧ s.base.core.Enabled lvl = false then
    ([], h)
  else
    let msg := getMessage fmt template fmtArgs
    match s.base.check lvl msg now h with
    | (some ce, h1) => (ce.Write (s.sweetenFields context), h1)
    | (none, h1) => ([], h1)

/-- The method `SugaredLogger.logln` (sugar.go), behind `Debugln` ...
`Fatalln`. -/
def SugaredLogger.logln (s : SugaredLogger) (fmt : Fmt) (lvl : zapcore.Level)
    (fmtArgs : List Any) (now : Nat) (h : Heap) : List Event × Heap :=
  if lvl.toInt < DPanicLevel.toInt ∧ s.base.core.Enabled lvl = false then
    ([], h)
  else
    let msg := getMessageln fmt fmtArgs
    match s.base.check lvl msg now h with
    | (some ce, h1) => (ce.Write [], h1)
    | (none, h1) => ([], h1)

/-! The per-level methods of the engine (logger.go, sugar.go): each is the
body above at its own level. -/

/-- The method `Logger.Debug` (logger.go). -/
def Logger.Debug (log : Logger) (msg : String) (fields : List Field) (now : Nat) (h : Heap) :
    List Event × Heap :=
  log.log DebugLevel msg fields now h

/-- The method `SugaredLogger.Debugf` (sugar.go): `s.log(DebugLevel, template, args, nil)`. -/
def SugaredLogger.Debugf (s : SugaredLogger) (fmt : Fmt) (template : String) (args : List Any)
    (now : Nat) (h : Heap) : List Event × Heap :=
  s.log fmt DebugLevel template args [] now h

/-- The method `SugaredLogger.Debugw` (sugar.go): `s.log(DebugLevel, msg, nil, keysAndValues)`. -/
def SugaredLogger.Debugw (s : SugaredLogger) (fmt : Fmt) (msg : String)
    (keysAndValues : List (String × Any)) (now : Nat) (h : Heap) : List Event × Heap :=
  s.log fmt DebugLevel msg [] keysAndValues now h

/-- The method `SugaredLogger.Debugln` (sugar.go): `s.logln(DebugLevel, args, nil)`. -/
def SugaredLogger.Debugln (s : SugaredLogger) (fmt : Fmt) (args : List Any) (now : Nat)
    (h : Heap) : List Event × Heap :=
  s.logln fmt DebugLevel args now h

/-- The method `Logger.Info` (logger.go). -/
def Logger.Info (log : Logger) (msg : String) (fields : List Field) (now : Nat) (h : Heap) :
    List Event × Heap :=
  log.log InfoLevel msg fields now h

/-- The method `SugaredLogger.Infof` (sugar.go): `s.log(InfoLevel, template, args, nil)`. -/
def SugaredLogger.Infof (s : SugaredLogger) (fmt : Fmt) (template : String) (args : List Any)
    (now : Nat) (h : Heap) : List Event × Heap :=
  s.log fmt InfoLevel template args [] now h

/-- The method `SugaredLogger.Infow` (sugar.go): `s.log(InfoLevel, msg, nil, keysAndValues)`. -/
def SugaredLogger.Infow (s : SugaredLogger) (fmt : Fmt) (msg : String)
    (keysAndValues : List (String × Any)) (now : Nat) (h : Heap) : List Event × Heap :=
  s.log fmt InfoLevel msg [] keysAndValues now h

/-- The method `SugaredLogger.Infoln` (sugar.go): `s.logln(InfoLevel, args, nil)`. -/
def SugaredLogger.Infoln (s : SugaredLogger) (fmt : Fmt) (args : List Any) (now : Nat)
    (h : Heap) : List Event × Heap :=
  s.logln fmt InfoLevel args now h

/-- The method `Logger.Warn` (logger.go). -/
def Logger.Warn (log : Logger) (msg : String) (fields : List Field) (now : Nat) (h : Heap) :
    List Event × Heap :=
  log.log WarnLevel msg fields now h

/-- The method `SugaredLogger.Warnf` (sugar.go): `s.log(WarnLevel, template, args, nil)`. -/
def SugaredLogger.Warnf (s : SugaredLogger) (fmt : Fmt) (template : String) (args : List Any)
    (now : Nat) (h : Heap) : List Event × Heap :=
  s.log fmt WarnLevel template args [] now h

/-- The method `SugaredLogger.Warnw` (sugar.go): `s.log(WarnLevel, msg, nil, keysAndValues)`. -/
def SugaredLogger.Warnw (s : SugaredLogger) (fmt : Fmt) (msg : String)
    (keysAndValues : List (String × Any)) (now : Nat) (h : Heap) : List Event × Heap :=
  s.log fmt WarnLevel msg [] keysAndValues now h

/-- The method `SugaredLogger.Warnln` (sugar.go): `s.logln(WarnLevel, args, nil)`. -/
def SugaredLogger.Warnln (s : SugaredLogger) (fmt : Fmt) (args : List Any) (now : Nat)
    (h : Heap) : List Event × Heap :=
  s.logln fmt WarnLevel args now h

/-- The method `Logger.Error` (logger.go). -/
def Logger.Error (log : Logger) (msg : String) (fields : List Field) (now : Nat) (h : Heap) :
    List Event × Heap :=
  log.log ErrorLevel msg fields now h

/-- The method `SugaredLogger.Errorf` (sugar.go): `s.log(ErrorLevel, template, args, nil)`. -/
def SugaredLogger.Errorf (s : SugaredLogger) (fmt : Fmt) (template : String) (args : List Any)
    (now : Nat) (h : Heap) : List Event × Heap :=
  s.log fmt ErrorLevel template args [] now h

/-- The method `SugaredLogger.Errorw` (sugar.go): `s.log(ErrorLevel, msg, nil, keysAndValues)`. -/
def SugaredLogger.Errorw (s : SugaredLogger) (fmt : Fmt) (msg : String)
    (keysAndValues : List (String × Any)) (now : Nat) (h : Heap) : List Event × Heap :=
  s.log fmt ErrorLevel msg [] keysAndValues now h

/-- The method `SugaredLogger.Errorln` (sugar.go): `s.logln(ErrorLevel, args, nil)`. -/
def SugaredLogger.Errorln (s : SugaredLogger) (fmt : Fmt) (args : List Any) (now : Nat)
    (h : Heap) : List Event × Heap :=
  s.logln fmt ErrorLevel args now h

/-- The method `Logger.Panic` (logger.go). -/
def Logger.Panic (log : Logger) (msg : String) (fields : List Field) (now : Nat) (h : Heap) :
    List Event × Heap :=
  log.log PanicLevel msg fields now h

/-- The method `SugaredLogger.Panicf` (sugar.go): `s.log(PanicLevel, template, args, nil)`. -/
def SugaredLogger.Panicf (s : SugaredLogger) (fmt : Fmt) (template : String) (args : List Any)
    (now : Nat) (h : Heap) : List Event × Heap :=
  s.log fmt PanicLevel template args [] now h

/-- The method `SugaredLogger.Panicw` (sugar.go): `s.log(PanicLevel, msg, nil, keysAndValues)`. -/
def SugaredLogger.Panicw (s : SugaredLogger) (fmt : Fmt) (msg : String)
    (keysAndValues : List (String × Any)) (now : Nat) (h : Heap) : List Event × Heap :=
  s.log fmt PanicLevel msg [] keysAndValues now h

/-- The method `SugaredLogger.Panicln` (sugar.go): `s.logln(PanicLevel, args, nil)`. -/
def SugaredLogger.Panicln (s : SugaredLogger) (fmt : Fmt) (args : List Any) (now : Nat)
    (h : Heap) : List Event × Heap :=
  s.logln fmt PanicLevel args now h

/-- The method `Logger.Fatal` (logger.go). -/
def Logger.Fatal (log : Logger) (msg : String) (fields : List Field) (now : Nat) (h : Heap) :
    List Event × Heap :=
  log.log FatalLevel msg fields now h

/-- The method `SugaredLogger.Fatalf` (sugar.go): `s.log(FatalLevel, template, args, nil)`. -/
def SugaredLogger.Fatalf (s : SugaredLogger) (fmt : Fmt) (template : String) (args : List Any)
    (now : Nat) (h : Heap) : List Event × Heap :=
  s.log fmt FatalLevel template args [] now h

/-- The method `SugaredLogger.Fatalw` (sugar.go): `s.log(FatalLevel, msg, nil, keysAndValues)`. -/
def SugaredLogger.Fatalw (s : SugaredLogger) (fmt : Fmt) (msg : String)
    (keysAndValues : List (String × Any)) (now : Nat) (h : Heap) : List Event × Heap :=
  s.log fmt FatalLevel msg [] keysAndValues now h

/-- The method `SugaredLogger.Fatalln` (sugar.go): `s.logln(FatalLevel, args, nil)`. -/
def SugaredLogger.Fatalln (s : SugaredLogger) (fmt : Fmt) (args : List Any) (now : Nat)
    (h : Heap) : List Event × Heap :=
  s.logln fmt FatalLevel args now h

end zap

/-! ## The facade: src/log.go -/

/-- The struct `zapLogger`: the structured handle and the sugared handle. -/
structure zapLogger where
  zl : zap.Logger
  sl : zap.SugaredLogger
  deriving DecidableEq, Repr

/-- The configuration `newZapLogger` assembles (log.go, lines 150 to 187):
the level parsed from `o.Level`, or `InfoLevel` when parsing fails; the
coloured level encoder when the format is the console one and colour is
enabled; the fixed keys and sampling.  The functions `timeEncoder` and
`milliSecondsDurationEncoder` are declared outside src/ and enter by name. -/
def loggerConfig (o : Options) : zap.Config :=
  let zapLevel : zapcore.Level :=
    match zapcore.Level.UnmarshalText o.Level with
    | some l => l
    | none => InfoLevel
  let encodeLevel : zapcore.LevelEncoder :=
    if o.Format = consoleFormat ∧ o.EnableColor = true then .CapitalColorLevelEncoder
    else .CapitalLevelEncoder
  let encoderConfig : zapcore.EncoderConfig :=
    { MessageKey := "message"
      LevelKey := "level"
      TimeKey := "timestamp"
      NameKey := "logger"
      CallerKey := "caller"
      StacktraceKey := "stacktrace"
      LineEnding := "\n"
      EncodeLevel := encodeLevel
      EncodeTime := "timeEncoder"
      EncodeDuration := "milliSecondsDurationEncoder"
      EncodeCaller := "ShortCallerEncoder" }
  { Level := zapLevel
    Development := o.Development
    DisableCaller := o.DisableCaller
    DisableStacktrace := o.DisableStacktrace
    Sampling := some { Initial := 100, Thereafter := 100 }
    Encoding := o.Format
    EncoderConfig := encoderConfig
    OutputPaths := o.OutputPaths
    ErrorOutputPaths := o.ErrorOutputPaths }

/-- The function `newZapLogger` (log.go, lines 149 to 200): build the engine
with `AddStacktrace(PanicLevel)` and `AddCallerSkip(1)`, panic with the error
if the build fails, else name the structured handle and sugar the engine. -/
def newZapLogger (env : Env) (o : Options) (h : Heap) : Outcome zapLogger × Heap :=
  match (loggerConfig o).Build env [.AddStacktrace PanicLevel, .AddCallerSkip 1] h with
  | .error err => (.panicked (.err err), h)
  | .ok (l, h1) => (.returned { zl := l.Named o.Name, sl := l.Sugar }, h1)

/-- The state of the process: the package variables `logger` and `mu` (true
when locked), and the heap. -/
structure World where
  logger : zapLogger
  mu : Bool
  heap : Heap
  deriving DecidableEq, Repr

/-- The function `Init` (log.go, lines 38 to 42): `mu.Lock()`, which blocks
on a locked mutex; `defer mu.Unlock()`; `logger = newZapLogger(o)`.  When
`newZapLogger` panics, the assignment is not reached and the deferred unlock
runs while the panic unwinds. -/
def Init (env : Env) (o : Options) (w : World) : Outcome Unit × World :=
  if w.mu then (.blocked, w)
  else
    let w1 := { w with mu := true }
    match newZapLogger env o w1.heap with
    | (.returned z, h) => (.returned (), { w1 with logger := z, heap := h, mu := false })
    | (.panicked v, h) => (.panicked v, { w1 with heap := h, mu := false })
    | (.exited c, h) => (.exited c, { w1 with heap := h })
    | (.blocked, h) => (.blocked, { w1 with heap := h })

/-- The function `New` (log.go, lines 44 to 46). -/
def New (env : Env) (o : Options) (w : World) : Outcome zapLogger × World :=
  let r := newZapLogger env o w.heap
  (r.1, { w with heap := r.2 })

/-- The package initialisation `logger = newZapLogger(NewOptions())` (log.go,
lines 9 to 12), on a fresh process: empty heap, unlocked mutex. -/
def initWorld (env : Env) : Outcome World :=
  match newZapLogger env NewOptions [] with
  | (.returned z, h) => .returned { logger := z, mu := false, heap := h }
  | (.panicked v, _) => .panicked v
  | (.exited c, _) => .exited c
  | (.blocked, _) => .blocked

/-- The six severities of the interface `Logger` (log.go, lines 14 to 33). -/
inductive Severity where
  | Debug
  | Info
  | Warn
  | Error
  | Panic
  | Fatal
  deriving DecidableEq, Repr

/-- The engine level a severity's methods log at. -/
def Severity.level : Severity → zapcore.Level
  | .Debug => DebugLevel
  | .Info => InfoLevel
  | .Warn => WarnLevel
  | .Error => ErrorLevel
  | .Panic => PanicLevel
  | .Fatal => FatalLevel

/-- The arguments of the three forms each severity `L` has in the interface
`Logger`: `L(msg, fields...)`, `Lf(format, v...)` and
`Lw(msg, keysAndValues...)`. -/
inductive Args where
  | structured (msg : String) (fields : List Field)
  | formatted (format : String) (v : List Any)
  | keyvals (msg : String) (keysAndValues : List (String × Any))
  deriving DecidableEq, Repr

/-! The eighteen methods of `*zapLogger` (log.go, lines 202 to 272). -/

/-- The method `(*zapLogger).Debug`: `l.zl.Debug(msg, fields...)`. -/
def zapLogger.Debug (l : zapLogger) (msg : String) (fields : List Field) (now : Nat) (h : Heap) :
    List Event × Heap :=
  l.zl.Debug msg fields now h

/-- The method `(*zapLogger).Debugf`: `l.sl.Debugf(format, v...)`. -/
def zapLogger.Debugf (l : zapLogger) (fmt : Fmt) (format : String) (v : List Any) (now : Nat)
    (h : Heap) : List Event × Heap :=
  l.sl.Debugf fmt format v now h

/-- The method `(*zapLogger).Debugw`: `l.sl.Debugw(msg, keysAndValues...)`. -/
def zapLogger.Debugw (l : zapLogger) (fmt : Fmt) (msg : String)
    (keysAndValues : List (String × Any)) (now : Nat) (h : Heap) : List Event × Heap :=
  l.sl.Debugw fmt msg keysAndValues now h

/-- The method `(*zapLogger).Info`: `l.zl.Info(msg, fields...)`. -/
def zapLogger.Info (l : zapLogger) (msg : String) (fields : List Field) (now : Nat) (h : Heap) :
    List Event × Heap :=
  l.zl.Info msg fields now h

/-- The method `(*zapLogger).Infof`: `l.sl.Infof(format, v...)`. -/
def zapLogger.Infof (l : zapLogger) (fmt : Fmt) (format : String) (v : List Any) (now : Nat)
    (h : Heap) : List Event × Heap :=
  l.sl.Infof fmt format v now h

/-- The method `(*zapLogger).Infow`: `l.sl.Infow(msg, keysAndValues...)`. -/
def zapLogger.Infow (l : zapLogger) (fmt : Fmt) (msg : String)
    (keysAndValues : List (String × Any)) (now : Nat) (h : Heap) : List Event × Heap :=
  l.sl.Infow fmt msg keysAndValues now h

/-- The method `(*zapLogger).Warn`: `l.zl.Warn(msg, fields...)`. -/
def zapLogger.Warn (l : zapLogger) (msg : String) (fields : List Field) (now : Nat) (h : Heap) :
    List Event × Heap :=
  l.zl.Warn msg fields now h

/-- The method `(*zapLogger).Warnf`: `l.sl.Warnf(format, v...)`. -/
def zapLogger.Warnf (l : zapLogger) (fmt : Fmt) (format : String) (v : List Any) (now : Nat)
    (h : Heap) : List Event × Heap :=
  l.sl.Warnf fmt format v now h

/-- The method `(*zapLogger).Warnw`: `l.sl.Warnw(msg, keysAndValues...)`. -/
def zapLogger.Warnw (l : zapLogger) (fmt : Fmt) (msg : String)
    (keysAndValues : List (String × Any)) (now : Nat) (h : Heap) : List Event × Heap :=
  l.sl.Warnw fmt msg keysAndValues now h

/-- The method `(*zapLogger).Error`: `l.zl.Error(msg, fields...)`. -/
def zapLogger.Error (l : zapLogger) (msg : String) (fields : List Field) (now : Nat) (h : Heap) :
    List Event × Heap :=
  l.zl.Error msg fields now h

/-- The method `(*zapLogger).Errorf`: `l.sl.Errorf(format, v...)`. -/
def zapLogger.Errorf (l : zapLogger) (fmt : Fmt) (format : String) (v : List Any) (now : Nat)
    (h : Heap) : List Event × Heap :=
  l.sl.Errorf fmt format v now h

/-- The method `(*zapLogger).Errorw`: `l.sl.Errorw(msg, keysAndValues...)`. -/
def zapLogger.Errorw (l : zapLogger) (fmt : Fmt) (msg : String)
    (keysAndValues : List (String × Any)) (now : Nat) (h : Heap) : List Event × Heap :=
  l.sl.Errorw fmt msg keysAndValues now h

/-- The method `(*zapLogger).Panic`: `l.zl.Panic(msg, fields...)`. -/
def zapLogger.Panic (l : zapLogger) (msg : String) (fields : List Field) (now : Nat) (h : Heap) :
    List Event × Heap :=
  l.zl.Panic msg fields now h

/-- The method `(*zapLogger).Panicf`: `l.sl.Panicf(format, v...)`. -/
def zapLogger.Panicf (l : zapLogger) (fmt : Fmt) (format : String) (v : List Any) (now : Nat)
    (h : Heap) : List Event × Heap :=
  l.sl.Panicf fmt format v now h

/-- The method `(*zapLogger).Panicw`: `l.sl.Panicw(msg, keysAndValues...)`. -/
def zapLogger.Panicw (l : zapLogger) (fmt : Fmt) (msg : String)
    (keysAndValues : List (String × Any)) (now : Nat) (h : Heap) : List Event × Heap :=
  l.sl.Panicw fmt msg keysAndValues now h

/-- The method `(*zapLogger).Fatal`: `l.zl.Fatal(msg, fields...)`. -/
def zapLogger.Fatal (l : zapLogger) (msg : String) (fields : List Field) (now : Nat) (h : Heap) :
    List Event × Heap :=
  l.zl.Fatal msg fields now h

/-- The method `(*zapLogger).Fatalf`: `l.sl.Fatalf(format, v...)`. -/
def zapLogger.Fatalf (l : zapLogger) (fmt : Fmt) (format : String) (v : List Any) (now : Nat)
    (h : Heap) : List Event × Heap :=
  l.sl.Fatalf fmt format v now h

/-- The method `(*zapLogger).Fatalw`: `l.sl.Fatalw(msg, keysAndValues...)`. -/
def zapLogger.Fatalw (l : zapLogger) (fmt : Fmt) (msg : String)
    (keysAndValues : List (String × Any)) (now : Nat) (h : Heap) : List Event × Heap :=
  l.sl.Fatalw fmt msg keysAndValues now h

/-! The free functions (log.go, lines 48 to 142): each reads the package
variable `logger`, without taking `mu`, and calls the engine handle. -/

/-- The function `Debug`: `logger.zl.Debug(msg, fields...)`. -/
def Debug (msg : String) (fields : List Field) (now : Nat) (w : World) : List Event × World :=
  let r := w.logger.zl.Debug msg fields now w.heap
  (r.1, { w with heap := r.2 })

/-- The function `Debugf`: `logger.sl.Debugf(format, v...)`. -/
def Debugf (fmt : Fmt) (format : String) (v : List Any) (now : Nat) (w : World) :
    List Event × World :=
  let r := w.logger.sl.Debugf fmt format v now w.heap
  (r.1, { w with heap := r.2 })

/-- The function `Debugw`: `logger.sl.Debugw(msg, keysAndValues...)`. -/
def Debugw (fmt : Fmt) (msg : String) (keysAndValues : List (String × Any)) (now : Nat)
    (w : World) : List Event × World :=
  let r := w.logger.sl.Debugw fmt msg keysAndValues now w.heap
  (r.1, { w with heap := r.2 })

/-- The function `Debugln`: `logger.sl.Debugln(args...)`. -/
def Debugln (fmt : Fmt) (args : List Any) (now : Nat) (w : World) : List Event × World :=
  let r := w.logger.sl.Debugln fmt args now w.heap
  (r.1, { w with heap := r.2 })

/-- The function `Info`: `logger.zl.Info(msg, fields...)`. -/
def Info (msg : String) (fields : List Field) (now : Nat) (w : World) : List Event × World :=
  let r := w.logger.zl.Info msg fields now w.heap
  (r.1, { w with heap := r.2 })

/-- The function `Infof`: `logger.sl.Infof(format, v...)`. -/
def Infof (fmt : Fmt) (format : String) (v : List Any) (now : Nat) (w : World) :
    List Event × World :=
  let r := w.logger.sl.Infof fmt format v now w.heap
  (r.1, { w with heap := r.2 })

/-- The function `Infow`: `logger.sl.Infow(msg, keysAndValues...)`. -/
def Infow (fmt : Fmt) (msg : String) (keysAndValues : List (String × Any)) (now : Nat)
    (w : World) : List Event × World :=
  let r := w.logger.sl.Infow fmt msg keysAndValues now w.heap
  (r.1, { w with heap := r.2 })

/-- The function `Infoln`: `logger.sl.Infoln(args...)`. -/
def Infoln (fmt : Fmt) (args : List Any) (now : Nat) (w : World) : List Event × World :=
  let r := w.logger.sl.Infoln fmt args now w.heap
  (r.1, { w with heap := r.2 })

/-- The function `Warn`: `logger.zl.Warn(msg, fields...)`. -/
def Warn (msg : String) (fields : List Field) (now : Nat) (w : World) : List Event × World :=
  let r := w.logger.zl.Warn msg fields now w.heap
  (r.1, { w with heap := r.2 })

/-- The function `Warnf`: `logger.sl.Warnf(format, v...)`. -/
def Warnf (fmt : Fmt) (format : String) (v : List Any) (now : Nat) (w : World) :
    List Event × World :=
  let r := w.logger.sl.Warnf fmt format v now w.heap
  (r.1, { w with heap := r.2 })

/-- The function `Warnw`: `logger.sl.Warnw(msg, keysAndValues...)`. -/
def Warnw (fmt : Fmt) (msg : String) (keysAndValues : List (String × Any)) (now : Nat)
    (w : World) : List Event × World :=
  let r := w.logger.sl.Warnw fmt msg keysAndValues now w.heap
  (r.1, { w with heap := r.2 })

/-- The function `Warnln`: `logger.sl.Warnln(args...)`. -/
def Warnln (fmt : Fmt) (args : List Any) (now : Nat) (w : World) : List Event × World :=
  let r := w.logger.sl.Warnln fmt args now w.heap
  (r.1, { w with heap := r.2 })

/-- The function `Error`: `logger.zl.Error(msg, fields...)`. -/
def Error (msg : String) (fields : List Field) (now : Nat) (w : World) : List Event × World :=
  let r := w.logger.zl.Error msg fields now w.heap
  (r.1, { w with heap := r.2 })

/-- The function `Errorf`: `logger.sl.Errorf(format, v...)`. -/
def Errorf (fmt : Fmt) (format : String) (v : List Any) (now : Nat) (w : World) :
    List Event × World :=
  let r := w.logger.sl.Errorf fmt format v now w.heap
  (r.1, { w with heap := r.2 })

/-- The function `Errorw`: `logger.sl.Errorw(msg, keysAndValues...)`. -/
def Errorw (fmt : Fmt) (msg : String) (keysAndValues : List (String × Any)) (now : Nat)
    (w : World) : List Event × World :=
  let r := w.logger.sl.Errorw fmt msg keysAndValues now w.heap
  (r.1, { w with heap := r.2 })

/-- The function `Errorln`: `logger.sl.Errorln(args...)`. -/
def Errorln (fmt : Fmt) (args : List Any) (now : Nat) (w : World) : List Event × World :=
  let r := w.logger.sl.Errorln fmt args now w.heap
  (r.1, { w with heap := r.2 })

/-- The function `Panic`: `logger.zl.Panic(msg, fields...)`. -/
def Panic (msg : String) (fields : List Field) (now : Nat) (w : World) : List Event × World :=
  let r := w.logger.zl.Panic msg fields now w.heap
  (r.1, { w with heap := r.2 })

/-- The function `Panicf`: `logger.sl.Panicf(format, v...)`. -/
def Panicf (fmt : Fmt) (format : String) (v : List Any) (now : Nat) (w : World) :
    List Event × World :=
  let r := w.logger.sl.Panicf fmt format v now w.heap
  (r.1, { w with heap := r.2 })

/-- The function `Panicw`: `logger.sl.Panicw(msg, keysAndValues...)`. -/
def Panicw (fmt : Fmt) (msg : String) (keysAndValues : List (String × Any)) (now : Nat)
    (w : World) : List Event × World :=
  let r := w.logger.sl.Panicw fmt msg keysAndValues now w.heap
  (r.1, { w with heap := r.2 })

/-- The function `Panicln`: `logger.sl.Panicln(args...)`. -/
def Panicln (fmt : Fmt) (args : List Any) (now : Nat) (w : World) : List Event × World :=
  let r := w.logger.sl.Panicln fmt args now w.heap
  (r.1, { w with heap := r.2 })

/-- The function `Fatal`: `logger.zl.Fatal(msg, fields...)`. -/
def Fatal (msg : String) (fields : List Field) (now : Nat) (w : World) : List Event × World :=
  let r := w.logger.zl.Fatal msg fields now w.heap
  (r.1, { w with heap := r.2 })

/-- The function `Fatalf`: `logger.sl.Fatalf(format, v...)`. -/
def Fatalf (fmt : Fmt) (format : String) (v : List Any) (now : Nat) (w : World) :
    List Event × World :=
  let r := w.logger.sl.Fatalf fmt format v now w.heap
  (r.1, { w with heap := r.2 })

/-- The function `Fatalw`: `logger.sl.Fatalw(msg, keysAndValues...)`. -/
def Fatalw (fmt : Fmt) (msg : String) (keysAndValues : List (String × Any)) (now : Nat)
    (w : World) : List Event × World :=
  let r := w.logger.sl.Fatalw fmt msg keysAndValues now w.heap
  (r.1, { w with heap := r.2 })

/-- The function `Fatalln`: `logger.sl.Fatalln(args...)`. -/
def Fatalln (fmt : Fmt) (args : List Any) (now : Nat) (w : World) : List Event × World :=
  let r := w.logger.sl.Fatalln fmt args now w.heap
  (r.1, { w with heap := r.2 })

/-- The method of the facade for a severity and a form of arguments: one of
the eighteen methods of the interface `Logger`. -/
def zapLogger.call (l : zapLogger) (fmt : Fmt) (sev : Severity) (a : Args) (now : Nat)
    (h : Heap) : List Event × Heap :=
  match sev, a with
  | .Debug, .structured msg fields => l.Debug msg fields now h
  | .Debug, .formatted format v => l.Debugf fmt format v now h
  | .Debug, .keyvals msg keysAndValues => l.Debugw fmt msg keysAndValues now h
  | .Info, .structured msg fields => l.Info msg fields now h
  | .Info, .formatted format v => l.Infof fmt format v now h
  | .Info, .keyvals msg keysAndValues => l.Infow fmt msg keysAndValues now h
  | .Warn, .structured msg fields => l.Warn msg fields now h
  | .Warn, .formatted format v => l.Warnf fmt format v now h
  | .Warn, .keyvals msg keysAndValues => l.Warnw fmt msg keysAndValues now h
  | .Error, .structured msg fields => l.Error msg fields now h
  | .Error, .formatted format v => l.Errorf fmt format v now h
  | .Error, .keyvals msg keysAndValues => l.Errorw fmt msg keysAndValues now h
  | .Panic, .structured msg fields => l.Panic msg fields now h
  | .Panic, .formatted format v => l.Panicf fmt format v now h
  | .Panic, .keyvals msg keysAndValues => l.Panicw fmt msg keysAndValues now h
  | .Fatal, .structured msg fields => l.Fatal msg fields now h
  | .Fatal, .formatted format v => l.Fatalf fmt format v now h
  | .Fatal, .keyvals msg keysAndValues => l.Fatalw fmt msg keysAndValues now h

/-- The free function for a severity and a form of arguments: the one that has
the name of the method `zapLogger.call` selects. -/
def call (fmt : Fmt) (sev : Severity) (a : Args) (now : Nat) (w : World) : List Event × World :=
  match sev, a with
  | .Debug, .structured msg fields => Debug msg fields now w
  | .Debug, .formatted format v => Debugf fmt format v now w
  | .Debug, .keyvals msg keysAndValues => Debugw fmt msg keysAndValues now w
  | .Info, .structured msg fields => Info msg fields now w
  | .Info, .formatted format v => Infof fmt format v now w
  | .Info, .keyvals msg keysAndValues => Infow fmt msg keysAndValues now w
  | .Warn, .structured msg fields => Warn msg fields now w
  | .Warn, .formatted format v => Warnf fmt format v now w
  | .Warn, .keyvals msg keysAndValues => Warnw fmt msg keysAndValues now w
  | .Error, .structured msg fields => Error msg fields now w
  | .Error, .formatted format v => Errorf fmt format v now w
  | .Error, .keyvals msg keysAndValues => Errorw fmt msg keysAndValues now w
  | .Panic, .structured msg fields => Panic msg fields now w
  | .Panic, .formatted format v => Panicf fmt format v now w
  | .Panic, .keyvals msg keysAndValues => Panicw fmt msg keysAndValues now w
  | .Fatal, .structured msg fields => Fatal msg fields now w
  | .Fatal, .formatted format v => Fatalf fmt format v now w
  | .Fatal, .keyvals msg keysAndValues => Fatalw fmt msg keysAndValues now w

/-- The free function of the line form for a severity: `Debugln` ...
`Fatalln`, which the interface `Logger` has no method for. -/
def callln (fmt : Fmt) (sev : Severity) (args : List Any) (now : Nat) (w : World) :
    List Event × World :=
  match sev with
  | .Debug => Debugln fmt args now w
  | .Info => Infoln fmt args now w
  | .Warn => Warnln fmt args now w
  | .Error => Errorln fmt args now w
  | .Panic => Panicln fmt args now w
  | .Fatal => Fatalln fmt args now w

/-- Go's `recover` in a deferred call of the caller: a panic is stopped there
and its value handed over; an exit or a block is not. -/
def Recover (r : Outcome Unit) : Outcome (Option PanicValue) :=
  match r with
  | .returned _ => .returned none
  | .panicked v => .returned (some v)
  | .exited c => .exited c
  | .blocked => .blocked

/-- The same free function called once at each of the given times, one after
the other, by a caller that recovers each panic and goes on: the state in
which the next call runs, if the process is still there (it is not after an
exit). -/
def afterCalls (fmt : Fmt) (sev : Severity) (a : Args) : List Nat → World → Option World
  | [], w => some w
  | now :: rest, w =>
    let r := call fmt sev a now w
    match Recover (outcome r.1) with
    | .returned _ => afterCalls fmt sev a rest r.2
    | _ => none

/-- The same method of a facade called once at each of the given times, one
after the other, by a caller that recovers each panic and goes on: the heap on
which the next call runs, if the process is still there. -/
def zapLogger.afterCalls (l : zapLogger) (fmt : Fmt) (sev : Severity) (a : Args) :
    List Nat → Heap → Option Heap
  | [], h => some h
  | now :: rest, h =>
    let r := l.call fmt sev a now h
    match Recover (outcome r.1) with
    | .returned _ => l.afterCalls fmt sev a rest r.2
    | _ => none

/-- The severity threshold of a facade: the level of the core, which its two
handles share. -/
def zapLogger.threshold (l : zapLogger) : zapcore.Level :=
  l.zl.core.level

/-- An environment in which the standard streams are the only destinations
that open and no encoding has been registered. -/
def stdEnv : Env :=
  { canOpen := fun _ => false, registered := [] }

/-- A formatter that returns the template as it is, for calls without
arguments to format. -/
def plainFmt : Fmt :=
  { Sprintf := fun template _ => template
    Sprint := fun _ => ""
    Sprintln := fun _ => "\n" }

/-- The events of one call on a facade that `New(o)` has just built in a fresh
process, if the build succeeded. -/
def firstCall (env : Env) (fmt : Fmt) (o : Options) (sev : Severity) (a : Args) (now : Nat) :
    Option (List Event) :=
  match newZapLogger env o [] with
  | (.returned z, h) => some (z.call fmt sev a now h).1
  | _ => none

/-- The state of a fresh process in `stdEnv`, right after the package
initialisation. -/
def freshWorld : World :=
  ((initWorld stdEnv).value?).get (by decide)

/-- The counter that the sampler of a facade keeps on the heap for a level and
a message (the zero counter when the engine has no sampler). -/
def zapLogger.counter (l : zapLogger) (h : Heap) (lvl : zapcore.Level) (msg : String) :
    zapcore.counter :=
  match l.zl.core.sampler with
  | some s =>
      (h.getD s.counts []).load (zapcore.levelIndex lvl)
        (zapcore.fnv32a msg % zapcore._countersPerLevel)
  | none => { resetAt := 0, counter := 0 }

/-! ## Parsing the level -/

/-- The helper `unmarshalText` rejects a text exactly when it is none of the
fifteen spellings of its `switch`. -/
theorem unmarshalText_eq_none_iff (text : String) :
    zapcore.Level.unmarshalText text = none ↔
      text ∉ ["debug", "DEBUG", "info", "INFO", "", "warn", "WARN", "error", "ERROR",
              "dpanic", "DPANIC", "panic", "PANIC", "fatal", "FATAL"] := by
  unfold zapcore.Level.unmarshalText
  simp only [List.mem_cons, List.mem_singleton, List.not_mem_nil, or_false]
  split_ifs <;> constructor <;> intro hx <;> first | rfl | tauto

/-- No rune comes out of `toLowerRune` as an ASCII capital. -/
theorem toLowerRune_not_capital (c : Char) :
    ¬ (65 ≤ (zapcore.toLowerRune c).toNat ∧ (zapcore.toLowerRune c).toNat ≤ 90) := by
  unfold zapcore.toLowerRune
  by_cases h1 : 65 ≤ c.toNat ∧ c.toNat ≤ 90
  · rw [if_pos h1]
    obtain ⟨ha, hb⟩ := h1
    generalize c.toNat = n at ha hb
    interval_cases n <;> decide
  · rw [if_neg h1]
    by_cases h2 : c.toNat = 304
    · rw [if_pos h2]; decide
    · rw [if_neg h2]
      by_cases h3 : c.toNat = 8490
      · rw [if_pos h3]; decide
      · rw [if_neg h3]; exact h1

/-- No text comes out of `ToLower` with an ASCII capital in front. -/
theorem ToLower_not_capitalised (s : String) (c : Char) (cs : List Char)
    (hc : 65 ≤ c.toNat ∧ c.toNat ≤ 90) : zapcore.ToLower s ≠ String.mk (c :: cs) := by
  intro h
  have hd : s.data.map zapcore.toLowerRune = c :: cs := congrArg String.data h
  cases hs : s.data with
  | nil => rw [hs] at hd; cases hd
  | cons d ds =>
    rw [hs] at hd
    simp only [List.map_cons, List.cons.injEq] at hd
    have := toLowerRune_not_capital d
    rw [hd.1] at this
    exact this hc

/-- The method `UnmarshalText` rejects a text exactly when its lower case is
neither empty nor one of the seven level names. -/
theorem UnmarshalText_eq_none_iff (text : String) :
    zapcore.Level.UnmarshalText text = none ↔
      zapcore.ToLower text ∉ ["", "debug", "info", "warn", "error", "dpanic", "panic", "fatal"] := by
  unfold zapcore.Level.UnmarshalText
  constructor
  · intro h
    cases h1 : zapcore.Level.unmarshalText text with
    | some l => rw [h1] at h; cases h
    | none =>
      rw [h1] at h
      have h2 := (unmarshalText_eq_none_iff _).1 h
      intro hm
      apply h2
      simp only [List.mem_cons, List.mem_singleton, List.not_mem_nil, or_false] at hm ⊢
      tauto
  · intro h
    have hl : zapcore.Level.unmarshalText (zapcore.ToLower text) = none := by
      rw [unmarshalText_eq_none_iff]
      intro hm
      simp only [List.mem_cons, List.mem_singleton, List.not_mem_nil, or_false] at hm h
      have c1 := ToLower_not_capitalised text (Char.ofNat 68) ['E', 'B', 'U', 'G'] (by decide)
      have c2 := ToLower_not_capitalised text (Char.ofNat 73) ['N', 'F', 'O'] (by decide)
      have c3 := ToLower_not_capitalised text (Char.ofNat 87) ['A', 'R', 'N'] (by decide)
      have c4 := ToLower_not_capitalised text (Char.ofNat 69) ['R', 'R', 'O', 'R'] (by decide)
      have c5 := ToLower_not_capitalised text (Char.ofNat 68) ['P', 'A', 'N', 'I', 'C'] (by decide)
      have c6 := ToLower_not_capitalised text (Char.ofNat 80) ['A', 'N', 'I', 'C'] (by decide)
      have c7 := ToLower_not_capitalised text (Char.ofNat 70) ['A', 'T', 'A', 'L'] (by decide)
      have e1 : String.mk (Char.ofNat 68 :: ['E', 'B', 'U', 'G']) = "DEBUG" := by decide
      have e2 : String.mk (Char.ofNat 73 :: ['N', 'F', 'O']) = "INFO" := by decide
      have e3 : String.mk (Char.ofNat 87 :: ['A', 'R', 'N']) = "WARN" := by decide
      have e4 : String.mk (Char.ofNat 69 :: ['R', 'R', 'O', 'R']) = "ERROR" := by decide
      have e5 : String.mk (Char.ofNat 68 :: ['P', 'A', 'N', 'I', 'C']) = "DPANIC" := by decide
      have e6 : String.mk (Char.ofNat 80 :: ['A', 'N', 'I', 'C']) = "PANIC" := by decide
      have e7 : String.mk (Char.ofNat 70 :: ['A', 'T', 'A', 'L']) = "FATAL" := by decide
      rw [e1] at c1; rw [e2] at c2; rw [e3] at c3; rw [e4] at c4
      rw [e5] at c5; rw [e6] at c6; rw [e7] at c7
      tauto
    have ht : zapcore.Level.unmarshalText text = none := by
      rw [unmarshalText_eq_none_iff]
      intro hm
      have hall : ∀ t ∈ ["debug", "DEBUG", "info", "INFO", "", "warn", "WARN", "error", "ERROR",
          "dpanic", "DPANIC", "panic", "PANIC", "fatal", "FATAL"],
          zapcore.ToLower t ∈ ["", "debug", "info", "warn", "error", "dpanic", "panic", "fatal"] := by
        decide
      exact h (hall text hm)
    rw [ht]
    exact hl

/-! ## What `newZapLogger` builds -/

/-- When `Open` succeeds, its sinks are the paths it was given. -/
theorem Open_ok (env : Env) (paths s : List String) (h : zap.Open env paths = .ok s) :
    s = paths := by
  unfold zap.Open at h
  by_cases hf : List.filter (fun p => !zap.newSink env p) paths = []
  · simp only [hf, if_true, Except.ok.injEq] at h
    exact h.symm
  · simp only [hf, if_false] at h
    cases h

/-- When `openSinks` succeeds, its sinks are the paths of the configuration. -/
theorem openSinks_ok (env : Env) (cfg : zap.Config) (sink errSink : List String)
    (h : cfg.openSinks env = .ok (sink, errSink)) :
    sink = cfg.OutputPaths ∧ errSink = cfg.ErrorOutputPaths := by
  unfold zap.Config.openSinks at h
  split at h
  · cases h
  · rename_i s1 h1
    split at h
    · cases h
    · rename_i s2 h2
      simp only [Except.ok.injEq, Prod.mk.injEq] at h
      rw [← h.1, ← h.2]
      exact ⟨Open_ok env _ _ h1, Open_ok env _ _ h2⟩

/-- The engine `Config.Build` returns for the configuration of `newZapLogger`
and its two options, whatever the three flags: the core with the sampler over
fresh counters, the stack level at `PanicLevel`, one caller frame skipped. -/
theorem Build_loggerConfig (env : Env) (o : Options) (h : Heap) (l : zap.Logger) (h1 : Heap)
    (hb : (loggerConfig o).Build env [.AddStacktrace PanicLevel, .AddCallerSkip 1] h
      = .ok (l, h1)) :
    h1 = h ++ [[]] ∧
    l = { core := { encoding := o.Format
                    encoderConfig := (loggerConfig o).EncoderConfig
                    out := o.OutputPaths
                    level := (loggerConfig o).Level
                    sampler := some { counts := h.length, tick := 1000000000, first := 100,
                                      thereafter := 100 } }
          development := o.Development
          addCaller := !o.DisableCaller
          name := ""
          errorOutput := o.ErrorOutputPaths
          addStack := 4
          callerSkip := 1 } := by
  unfold zap.Config.Build at hb
  split at hb
  · cases hb
  · split at hb
    · cases hb
    · rename_i sink errSink hs
      obtain ⟨rfl, rfl⟩ := openSinks_ok env _ _ _ hs
      simp only [Except.ok.injEq] at hb
      have e1 := congrArg Prod.fst hb
      have e2 := congrArg Prod.snd hb
      simp only [] at e1 e2
      subst e1 e2
      cases hd : o.Development <;> cases hc : o.DisableCaller <;> cases hst : o.DisableStacktrace <;>
        simp [zap.New, zap.Logger.WithOptions, zap.Config.buildOptions, loggerConfig,
          zap.LoggerOption.apply, hd, hc, hst, zapcore.Level.toInt]

/-- A build succeeds exactly when the encoder is found and the sinks open. -/
theorem Build_isOk (env : Env) (cfg : zap.Config) (opts : List zap.LoggerOption) (h : Heap) :
    (cfg.Build env opts h).isOk
      = ((zap.newEncoder env cfg.Encoding cfg.EncoderConfig).isOk && (cfg.openSinks env).isOk) := by
  unfold zap.Config.Build
  cases zap.newEncoder env cfg.Encoding cfg.EncoderConfig with
  | error e => rfl
  | ok u =>
    cases cfg.openSinks env with
    | error e => rfl
    | ok p => rfl

/-- Opening the sinks looks at the two path lists of the configuration only. -/
theorem openSinks_congr (env : Env) (c1 c2 : zap.Config) (ho : c1.OutputPaths = c2.OutputPaths)
    (he : c1.ErrorOutputPaths = c2.ErrorOutputPaths) :
    (c1.openSinks env).isOk = (c2.openSinks env).isOk := by
  unfold zap.Config.openSinks
  rw [ho, he]

/-- The facade is returned exactly when the build succeeds. -/
theorem newZapLogger_isSome (env : Env) (o : Options) (h : Heap) :
    (newZapLogger env o h).1.value?.isSome
      = ((loggerConfig o).Build env [.AddStacktrace PanicLevel, .AddCallerSkip 1] h).isOk := by
  unfold newZapLogger
  cases (loggerConfig o).Build env [.AddStacktrace PanicLevel, .AddCallerSkip 1] h with
  | error e => rfl
  | ok p => rfl

/-- The facade `newZapLogger` returns: both handles on the one built engine,
the structured handle named `o.Name`, the sugared handle taken from the engine
before it was named. -/
theorem newZapLogger_returned (env : Env) (o : Options) (h : Heap) (z : zapLogger) (h1 : Heap)
    (hb : newZapLogger env o h = (.returned z, h1)) :
    h1 = h ++ [[]] ∧
    z.zl = { core := { encoding := o.Format
                       encoderConfig := (loggerConfig o).EncoderConfig
                       out := o.OutputPaths
                       level := (loggerConfig o).Level
                       sampler := some { counts := h.length, tick := 1000000000, first := 100,
                                         thereafter := 100 } }
             development := o.Development
             addCaller := !o.DisableCaller
             name := o.Name
             errorOutput := o.ErrorOutputPaths
             addStack := 4
             callerSkip := 1 } ∧
    z.sl.base = { z.zl with name := "", callerSkip := 3 } := by
  unfold newZapLogger at hb
  split at hb
  · cases hb
  · rename_i l h2 hbuild
    obtain ⟨rfl, rfl⟩ := Build_loggerConfig env o h l h2 hbuild
    simp only [Prod.mk.injEq, Outcome.returned.injEq] at hb
    obtain ⟨rfl, rfl⟩ := hb
    refine ⟨rfl, ?_, ?_⟩
    · by_cases hn : o.Name = ""
      · simp [zap.Logger.Named, hn]
      · simp [zap.Logger.Named, hn]
    · by_cases hn : o.Name = ""
      · simp [zap.Logger.Named, zap.Logger.Sugar, hn]
      · simp [zap.Logger.Named, zap.Logger.Sugar, hn]

/-! ## Checking an entry -/

/-- The core either lets an entry through, handing it to the `ioCore` alone
and unannotated, or does not; it lets through only a level that is enabled. -/
theorem Core_Check_none (c : zapcore.Core) (ent : zapcore.Entry) (h : Heap) :
    (c.Check ent none h).1 = none ∨
    ((c.Check ent none h).1
        = some { Entry := ent, ErrorOutput := [], after := .WriteThenNoop,
                 cores := [{ c with sampler := none }] } ∧
      c.Enabled ent.Level = true) := by
  unfold zapcore.Core.Check zapcore.Core.ioCheck zapcore.CheckedEntry.AddCore
  cases hs : c.sampler with
  | none =>
    cases he : c.Enabled ent.Level <;> simp
  | some s =>
    cases he : c.Enabled ent.Level
    · simp
    · simp only [Bool.not_true, Bool.false_eq_true, if_false]
      split <;> simp

/-- What `Logger.check` returns for the six levels of the facade: nothing; or
an entry no core will write, kept for its terminal behaviour; or the entry with
the one core that will write it, annotated. -/
theorem Logger_check_cases (log : zap.Logger) (lvl : zapcore.Level) (msg : String) (now : Nat)
    (h : Heap) (hl : lvl ≠ DPanicLevel) :
    ((log.check lvl msg now h).1 = none ∧ lvl.toInt < PanicLevel.toInt) ∨
    ((log.check lvl msg now h).1
        = some { Entry := { Level := lvl, Time := now, LoggerName := log.name, Message := msg,
                            Caller := none, Stack := false }
                 ErrorOutput := []
                 after := if lvl = PanicLevel then .WriteThenPanic else .WriteThenFatal
                 cores := [] } ∧
      PanicLevel.toInt ≤ lvl.toInt) ∨
    ((log.check lvl msg now h).1
        = some { Entry := { Level := lvl, Time := now, LoggerName := log.name, Message := msg,
                            Caller := if log.addCaller then some (log.callerSkip + 2) else none,
                            Stack := decide (log.addStack ≤ lvl.toInt) }
                 ErrorOutput := log.errorOutput
                 after := if lvl = PanicLevel then .WriteThenPanic
                          else if lvl = FatalLevel then .WriteThenFatal else .WriteThenNoop
                 cores := [{ log.core with sampler := none }] } ∧
      log.core.Enabled lvl = true) := by
  unfold zap.Logger.check
  by_cases h0 : lvl.toInt < DPanicLevel.toInt ∧ log.core.Enabled lvl = false
  · left
    rw [if_pos h0]
    refine ⟨rfl, ?_⟩
    have := h0.1
    simp only [zapcore.Level.toInt] at this ⊢
    omega
  · rw [if_neg h0]
    rcases Core_Check_none log.core
        { Level := lvl, Time := now, LoggerName := log.name, Message := msg,
          Caller := none, Stack := false } h with hc | ⟨hc, he⟩
    · cases lvl <;>
        simp_all [zapcore.CheckedEntry.After, zapcore.Level.toInt]
    · right; right
      cases lvl <;>
        simp_all [zapcore.CheckedEntry.After, zapcore.Level.toInt]

/-- The events of a structured call at one of the six levels of the facade:
at most one record, the one of this level, message and logger name, and after
it the panic of `PanicLevel` or the exit of `FatalLevel`. -/
theorem Logger_log_cases (log : zap.Logger) (lvl : zapcore.Level) (msg : String)
    (fields : List Field) (now : Nat) (h : Heap) (hl : lvl ≠ DPanicLevel) :
    (log.log lvl msg fields now h).1
        = (if lvl = PanicLevel then [Event.panic (.msg msg)]
           else if lvl = FatalLevel then [Event.exit 1] else []) ∨
    ((log.log lvl msg fields now h).1
        = Event.write
            { entry := { Level := lvl, Time := now, LoggerName := log.name, Message := msg,
                         Caller := if log.addCaller then some (log.callerSkip + 2) else none,
                         Stack := decide (log.addStack ≤ lvl.toInt) }
              fields := fields
              out := log.core.out
              level := log.core.encoderConfig.EncodeLevel.render lvl } ::
          (if lvl = PanicLevel then [Event.panic (.msg msg)]
           else if lvl = FatalLevel then [Event.exit 1] else []) ∧
      log.core.Enabled lvl = true) := by
  unfold zap.Logger.log
  have hcases := Logger_check_cases log lvl msg now h hl
  generalize log.check lvl msg now h = r at hcases ⊢
  obtain ⟨ce, h1⟩ := r
  simp only [] at hcases
  rcases hcases with ⟨hc, _⟩ | ⟨hc, hge⟩ | ⟨hc, he⟩
  · subst hc
    left
    cases lvl <;> simp_all [zapcore.Level.toInt]
  · subst hc
    left
    cases lvl <;> simp_all [zapcore.Level.toInt, zapcore.CheckedEntry.Write]
  · subst hc
    right
    refine ⟨?_, he⟩
    cases lvl <;> simp_all [zapcore.CheckedEntry.Write, zapcore.Core.Write]

/-- The events of a formatted or key-value call at one of the six levels of
the facade: as for a structured call, on the base logger of the sugared
handle, with the formatted message. -/
theorem SugaredLogger_log_cases (s : zap.SugaredLogger) (fmt : Fmt) (lvl : zapcore.Level)
    (template : String) (fmtArgs : List Any) (context : List (String × Any)) (now : Nat)
    (h : Heap) (hl : lvl ≠ DPanicLevel) :
    (s.log fmt lvl template fmtArgs context now h).1
        = (if lvl = PanicLevel then [Event.panic (.msg (zap.getMessage fmt template fmtArgs))]
           else if lvl = FatalLevel then [Event.exit 1] else []) ∨
    ((s.log fmt lvl template fmtArgs context now h).1
        = Event.write
            { entry := { Level := lvl, Time := now, LoggerName := s.base.name,
                         Message := zap.getMessage fmt template fmtArgs,
                         Caller := if s.base.addCaller then some (s.base.callerSkip + 2) else none,
                         Stack := decide (s.base.addStack ≤ lvl.toInt) }
              fields := s.sweetenFields context
              out := s.base.core.out
              level := s.base.core.encoderConfig.EncodeLevel.render lvl } ::
          (if lvl = PanicLevel then [Event.panic (.msg (zap.getMessage fmt template fmtArgs))]
           else if lvl = FatalLevel then [Event.exit 1] else []) ∧
      s.base.core.Enabled lvl = true) := by
  unfold zap.SugaredLogger.log
  by_cases h0 : lvl.toInt < DPanicLevel.toInt ∧ s.base.core.Enabled lvl = false
  · left
    rw [if_pos h0]
    have := h0.1
    cases lvl <;> simp_all [zapcore.Level.toInt]
  · rw [if_neg h0]
    exact Logger_log_cases s.base lvl (zap.getMessage fmt template fmtArgs)
      (s.sweetenFields context) now h hl

/-- The events of a line call at one of the six levels of the facade: at most
one write, and after it the panic of `PanicLevel` or the exit of `FatalLevel`. -/
theorem SugaredLogger_logln_cases (s : zap.SugaredLogger) (fmt : Fmt) (lvl : zapcore.Level)
    (fmtArgs : List Any) (now : Nat) (h : Heap) (hl : lvl ≠ DPanicLevel) :
    ∃ recs : List Record, recs.length ≤ 1 ∧
      (s.logln fmt lvl fmtArgs now h).1
        = recs.map Event.write ++
          (if lvl = PanicLevel then [Event.panic (.msg (zap.getMessageln fmt fmtArgs))]
           else if lvl = FatalLevel then [Event.exit 1] else []) := by
  unfold zap.SugaredLogger.logln
  by_cases h0 : lvl.toInt < DPanicLevel.toInt ∧ s.base.core.Enabled lvl = false
  · rw [if_pos h0]
    have := h0.1
    exact ⟨[], by simp, by cases lvl <;> simp_all [zapcore.Level.toInt]⟩
  · rw [if_neg h0]
    rcases Logger_log_cases s.base lvl (zap.getMessageln fmt fmtArgs) [] now h hl with
      hev | ⟨hev, _⟩
    · exact ⟨[], by simp, by simpa using hev⟩
    · exact ⟨[_], by simp, by simpa using hev⟩

/-- No severity of the facade logs at `DPanicLevel`. -/
theorem Severity_level_ne_DPanic (sev : Severity) : sev.level ≠ DPanicLevel := by
  cases sev <;> simp [Severity.level]

/-- A free function does what the method of the same name does on the
package variable `logger`. -/
theorem call_eq_method (fmt : Fmt) (sev : Severity) (a : Args) (now : Nat) (w : World) :
    call fmt sev a now w
      = ((w.logger.call fmt sev a now w.heap).1,
         { w with heap := (w.logger.call fmt sev a now w.heap).2 }) := by
  cases sev <;> cases a <;> rfl

/-- Each method of the facade is the engine call of its form, at the level of
its severity, on the handle of its form. -/
theorem zapLogger_call_eq (z : zapLogger) (fmt : Fmt) (sev : Severity) (a : Args) (now : Nat)
    (h : Heap) :
    z.call fmt sev a now h
      = (match a with
          | .structured msg fields => z.zl.log sev.level msg fields now h
          | .formatted format v => z.sl.log fmt sev.level format v [] now h
          | .keyvals msg keysAndValues => z.sl.log fmt sev.level msg [] keysAndValues now h) := by
  cases sev <;> cases a <;> rfl

/-- The events of a method of the facade: the handle it goes through (`zl` for
the structured form, the base of `sl` for the other two), the message, and at
most one record before the panic of `Panic` or the exit of `Fatal`. -/
theorem zapLogger_call_cases (z : zapLogger) (fmt : Fmt) (sev : Severity) (a : Args) (now : Nat)
    (h : Heap) :
    ∃ (log : zap.Logger) (msg : String) (fields : List Field),
      (log = z.zl ∧ (∃ m fs, a = .structured m fs) ∨
        log = z.sl.base ∧ ((∃ f v, a = .formatted f v) ∨ (∃ m kvs, a = .keyvals m kvs))) ∧
      ((z.call fmt sev a now h).1
          = (if sev.level = PanicLevel then [Event.panic (.msg msg)]
             else if sev.level = FatalLevel then [Event.exit 1] else []) ∨
       ((z.call fmt sev a now h).1
          = Event.write
              { entry := { Level := sev.level, Time := now, LoggerName := log.name,
                           Message := msg,
                           Caller := if log.addCaller then some (log.callerSkip + 2) else none,
                           Stack := decide (log.addStack ≤ sev.level.toInt) }
                fields := fields
                out := log.core.out
                level := log.core.encoderConfig.EncodeLevel.render sev.level } ::
            (if sev.level = PanicLevel then [Event.panic (.msg msg)]
             else if sev.level = FatalLevel then [Event.exit 1] else []) ∧
        log.core.Enabled sev.level = true)) := by
  rw [zapLogger_call_eq]
  cases a with
  | structured m fs =>
    exact ⟨z.zl, m, fs, Or.inl ⟨rfl, m, fs, rfl⟩,
      Logger_log_cases z.zl sev.level m fs now h (Severity_level_ne_DPanic sev)⟩
  | formatted f v =>
    exact ⟨z.sl.base, zap.getMessage fmt f v, z.sl.sweetenFields [],
      Or.inr ⟨rfl, Or.inl ⟨f, v, rfl⟩⟩,
      SugaredLogger_log_cases z.sl fmt sev.level f v [] now h (Severity_level_ne_DPanic sev)⟩
  | keyvals m kvs =>
    exact ⟨z.sl.base, zap.getMessage fmt m [], z.sl.sweetenFields kvs,
      Or.inr ⟨rfl, Or.inr ⟨m, kvs, rfl⟩⟩,
      SugaredLogger_log_cases z.sl fmt sev.level m [] kvs now h (Severity_level_ne_DPanic sev)⟩

/-- The records of a method of the facade: none or one, which carries the
level of the call, the name of the handle it went through, that handle's stack
decision and the level as that handle's encoder renders it. -/
theorem zapLogger_call_written (z : zapLogger) (fmt : Fmt) (sev : Severity) (a : Args)
    (now : Nat) (h : Heap) (r : Record) (hr : r ∈ written (z.call fmt sev a now h).1) :
    ∃ log : zap.Logger,
      (log = z.zl ∧ (∃ m fs, a = .structured m fs) ∨
        log = z.sl.base ∧ ((∃ f v, a = .formatted f v) ∨ (∃ m kvs, a = .keyvals m kvs))) ∧
      written (z.call fmt sev a now h).1 = [r] ∧
      r.entry.Level = sev.level ∧
      r.entry.LoggerName = log.name ∧
      r.entry.Stack = decide (log.addStack ≤ sev.level.toInt) ∧
      r.level = log.core.encoderConfig.EncodeLevel.render sev.level ∧
      log.core.Enabled sev.level = true := by
  obtain ⟨log, msg, fields, hlog, hev | ⟨hev, hen⟩⟩ := zapLogger_call_cases z fmt sev a now h
  · rw [hev] at hr
    cases sev <;> simp [written, Severity.level] at hr
  · refine ⟨log, hlog, ?_⟩
    rw [hev] at hr ⊢
    cases sev <;> simp [written, Severity.level] at hr ⊢ <;> subst hr <;>
      simp_all [Severity.level]

/-- The plain level encoder renders no escape character. -/
theorem CapitalLevelEncoder_no_escape (lvl : zapcore.Level) :
    zapcore.escape ∉ (zapcore.LevelEncoder.CapitalLevelEncoder.render lvl).data := by
  cases lvl <;> decide

/-- A failed build makes `newZapLogger` panic with the error, the heap as it
was. -/
theorem newZapLogger_panicked (env : Env) (o : Options) (h : Heap) (e : BuildError)
    (hfail : (loggerConfig o).Build env [.AddStacktrace PanicLevel, .AddCallerSkip 1] h
      = .error e) :
    newZapLogger env o h = (.panicked (.err e), h) := by
  unfold newZapLogger
  rw [hfail]

/-- The engine built from the configuration alone, without the two options of
`newZapLogger`, takes its stack level from the two flags. -/
theorem Build_without_options (env : Env) (o : Options) (h : Heap) (l : zap.Logger) (h1 : Heap)
    (hb : (loggerConfig o).Build env [] h = .ok (l, h1)) :
    l.addStack = (if o.DisableStacktrace then FatalLevel.toInt + 1
                  else if o.Development then WarnLevel.toInt else ErrorLevel.toInt) := by
  unfold zap.Config.Build at hb
  split at hb
  · cases hb
  · split at hb
    · cases hb
    · simp only [Except.ok.injEq] at hb
      have e1 := congrArg Prod.fst hb
      simp only [] at e1
      subst e1
      cases hd : o.Development <;> cases hc : o.DisableCaller <;> cases hst : o.DisableStacktrace <;>
        simp [zap.New, zap.Logger.WithOptions, zap.Config.buildOptions, loggerConfig,
          zap.LoggerOption.apply, hd, hc, hst, zapcore.Level.toInt]

/-- The function `newZapLogger` returns or panics: it never blocks. -/
theorem newZapLogger_not_blocked (env : Env) (o : Options) (h : Heap) :
    (newZapLogger env o h).1 ≠ .blocked := by
  unfold newZapLogger
  split <;> simp

/-! ## The sampler, call after call -/

/-- A cell that was just stored is what is loaded. -/
theorem counters_load_store (cs : zapcore.counters) (i j : Nat) (c : zapcore.counter) :
    (cs.store i j c).load i j = c := by
  simp [zapcore.counters.load, zapcore.counters.store, List.lookup]

/-- A table that was just put on the heap is what is read there. -/
theorem Heap_getD_set (h : Heap) (p : Nat) (cs : zapcore.counters) (hp : p < h.length) :
    (h.set p cs).getD p [] = cs := by
  simp [List.getD, hp]

/-- A structured call at a disabled level writes nothing and leaves the heap
as it was. -/
theorem Logger_log_disabled (log : zap.Logger) (lvl : zapcore.Level) (msg : String)
    (fields : List Field) (now : Nat) (h : Heap) (hl : lvl ≠ DPanicLevel)
    (hen : log.core.Enabled lvl = false) :
    written (log.log lvl msg fields now h).1 = [] ∧ (log.log lvl msg fields now h).2 = h := by
  unfold zap.Logger.log zap.Logger.check zapcore.Core.Check zapcore.Core.ioCheck
  cases hs : log.core.sampler <;>
    cases lvl <;>
      simp_all [zapcore.Level.toInt, zapcore.CheckedEntry.After, zapcore.CheckedEntry.Write,
        written]

/-- A structured call at an enabled level, on an engine with a sampler: the
sampler counts it, and the call writes its one record unless the count is
beyond `first` and not a multiple of `thereafter` past it. -/
theorem Logger_log_sampled (log : zap.Logger) (lvl : zapcore.Level) (msg : String)
    (fields : List Field) (now : Nat) (h : Heap) (s : zapcore.Sampler) (hl : lvl ≠ DPanicLevel)
    (hs : log.core.sampler = some s) (hen : log.core.Enabled lvl = true) :
    (log.log lvl msg fields now h).2
        = h.set s.counts
            ((h.getD s.counts []).store (zapcore.levelIndex lvl)
              (zapcore.fnv32a msg % zapcore._countersPerLevel)
              (((h.getD s.counts []).load (zapcore.levelIndex lvl)
                (zapcore.fnv32a msg % zapcore._countersPerLevel)).IncCheckReset now s.tick).2) ∧
    ((((h.getD s.counts []).load (zapcore.levelIndex lvl)
          (zapcore.fnv32a msg % zapcore._countersPerLevel)).IncCheckReset now s.tick).1 > s.first ∧
        (s.thereafter = 0 ∨
          ((((h.getD s.counts []).load (zapcore.levelIndex lvl)
            (zapcore.fnv32a msg % zapcore._countersPerLevel)).IncCheckReset now s.tick).1
              - s.first) % s.thereafter ≠ 0) →
      written (log.log lvl msg fields now h).1 = []) ∧
    (¬ ((((h.getD s.counts []).load (zapcore.levelIndex lvl)
          (zapcore.fnv32a msg % zapcore._countersPerLevel)).IncCheckReset now s.tick).1 > s.first ∧
        (s.thereafter = 0 ∨
          ((((h.getD s.counts []).load (zapcore.levelIndex lvl)
            (zapcore.fnv32a msg % zapcore._countersPerLevel)).IncCheckReset now s.tick).1
              - s.first) % s.thereafter ≠ 0)) →
      ∃ r : Record, written (log.log lvl msg fields now h).1 = [r] ∧ r.entry.Level = lvl ∧
        r.entry.Message = msg ∧ r.entry.LoggerName = log.name ∧
        r.entry.Stack = decide (log.addStack ≤ lvl.toInt)) := by
  generalize hr : ((h.getD s.counts []).load (zapcore.levelIndex lvl)
      (zapcore.fnv32a msg % zapcore._countersPerLevel)).IncCheckReset now s.tick = r
  unfold zap.Logger.log zap.Logger.check zapcore.Core.Check zapcore.Core.ioCheck
  have h0 : ¬ (lvl.toInt < DPanicLevel.toInt ∧ log.core.Enabled lvl = false) := by
    simp [hen]
  rw [if_neg h0]
  simp only [hs, hen, Bool.not_true, Bool.false_eq_true, if_false, if_true, hr]
  by_cases hd : r.1 > s.first ∧ (s.thereafter = 0 ∨ (r.1 - s.first) % s.thereafter ≠ 0)
  · rw [if_pos hd]
    refine ⟨?_, ?_, ?_⟩
    · cases lvl <;> simp_all
    · intro _
      cases lvl <;> simp_all [zapcore.CheckedEntry.After, zapcore.CheckedEntry.Write, written]
    · intro hn; exact absurd hd hn
  · rw [if_neg hd]
    refine ⟨?_, ?_, ?_⟩
    · cases lvl <;> simp_all [zapcore.CheckedEntry.AddCore]
    · intro hn; exact absurd hn hd
    · intro _
      cases lvl <;>
        simp_all [zapcore.CheckedEntry.After, zapcore.CheckedEntry.Write, written,
          zapcore.CheckedEntry.AddCore, zapcore.Core.Write]

/-- Inside the tick, `IncCheckReset` adds one to the count and keeps the end
of the tick. -/
theorem IncCheckReset_inside (resetAt k t tick : Nat) (ht : t < resetAt) :
    zapcore.counter.IncCheckReset { resetAt := resetAt, counter := k } t tick
      = (k + 1, { resetAt := resetAt, counter := k + 1 }) := by
  unfold zapcore.counter.IncCheckReset
  simp [ht]

/-- On the zero counter, `IncCheckReset` starts the count at 1 and the tick at
the time of the call. -/
theorem IncCheckReset_zero (t tick : Nat) :
    zapcore.counter.IncCheckReset { resetAt := 0, counter := 0 } t tick
      = (1, { resetAt := t + tick, counter := 1 }) := by
  unfold zapcore.counter.IncCheckReset
  simp

/-- A structured method of the facade is the structured engine call on `zl`. -/
theorem zapLogger_call_structured_eq (z : zapLogger) (fmt : Fmt) (sev : Severity) (msg : String)
    (fields : List Field) (now : Nat) (h : Heap) :
    z.call fmt sev (.structured msg fields) now h = z.zl.log sev.level msg fields now h := by
  cases sev <;> rfl

/-- A structured method at a disabled level writes nothing and leaves the
heap as it was. -/
theorem method_structured_disabled (z : zapLogger) (fmt : Fmt) (sev : Severity) (msg : String)
    (fields : List Field) (now : Nat) (h : Heap)
    (hen : z.zl.core.Enabled sev.level = false) :
    written (z.call fmt sev (.structured msg fields) now h).1 = [] ∧
    (z.call fmt sev (.structured msg fields) now h).2 = h := by
  rw [zapLogger_call_structured_eq]
  exact Logger_log_disabled z.zl sev.level msg fields now h (Severity_level_ne_DPanic sev) hen

/-- A structured method at an enabled level, on a facade with a sampler whose
counters are on the heap: the sampler's counter for the level and the message
takes the step of `IncCheckReset`, the heap keeps its length, and the record
is written unless the count is beyond `first` and not a multiple of
`thereafter` past it. -/
theorem method_structured_sampled (z : zapLogger) (fmt : Fmt) (sev : Severity) (msg : String)
    (fields : List Field) (now : Nat) (h : Heap) (s : zapcore.Sampler)
    (hs : z.zl.core.sampler = some s) (hp : s.counts < h.length)
    (hen : z.zl.core.Enabled sev.level = true) :
    (z.call fmt sev (.structured msg fields) now h).2.length = h.length ∧
    z.counter (z.call fmt sev (.structured msg fields) now h).2 sev.level msg
        = ((z.counter h sev.level msg).IncCheckReset now s.tick).2 ∧
    (((z.counter h sev.level msg).IncCheckReset now s.tick).1 > s.first ∧
        (s.thereafter = 0 ∨
          (((z.counter h sev.level msg).IncCheckReset now s.tick).1 - s.first) % s.thereafter ≠ 0) →
      written (z.call fmt sev (.structured msg fields) now h).1 = []) ∧
    (¬ (((z.counter h sev.level msg).IncCheckReset now s.tick).1 > s.first ∧
        (s.thereafter = 0 ∨
          (((z.counter h sev.level msg).IncCheckReset now s.tick).1 - s.first) % s.thereafter ≠ 0)) →
      ∃ r : Record, written (z.call fmt sev (.structured msg fields) now h).1 = [r] ∧
        r.entry.Level = sev.level ∧ r.entry.Message = msg ∧
        r.entry.LoggerName = z.zl.name) := by
  obtain ⟨h1, h2, h3⟩ := Logger_log_sampled z.zl sev.level msg fields now h s
    (Severity_level_ne_DPanic sev) hs hen
  have hc : z.counter h sev.level msg
      = (h.getD s.counts []).load (zapcore.levelIndex sev.level)
          (zapcore.fnv32a msg % zapcore._countersPerLevel) := by
    unfold zapLogger.counter
    rw [hs]
  rw [zapLogger_call_structured_eq, hc]
  refine ⟨?_, ?_, h2, ?_⟩
  · rw [h1]
    simp
  · unfold zapLogger.counter
    simp only [hs]
    rw [h1, Heap_getD_set _ _ _ hp, counters_load_store]
  · intro hn
    obtain ⟨r, hr1, hr2, hr3, hr4, _⟩ := h3 hn
    exact ⟨r, hr1, hr2, hr3, hr4⟩

/-- The first call that a sampler counts under a level and a message is
written: an engine call at an enabled level, on a counter that is still zero,
writes its one record, with a stack where `addStack` is enabled for the
level. -/
theorem Logger_log_fresh (log : zap.Logger) (lvl : zapcore.Level) (msg : String)
    (fields : List Field) (now : Nat) (h : Heap) (s : zapcore.Sampler) (hl : lvl ≠ DPanicLevel)
    (hs : log.core.sampler = some s) (hen : log.core.Enabled lvl = true)
    (hfresh : (h.getD s.counts []).load (zapcore.levelIndex lvl)
        (zapcore.fnv32a msg % zapcore._countersPerLevel) = { resetAt := 0, counter := 0 })
    (hfirst : 1 ≤ s.first) :
    ∃ r : Record, written (log.log lvl msg fields now h).1 = [r] ∧ r.entry.Level = lvl ∧
      r.entry.Message = msg ∧ r.entry.LoggerName = log.name ∧
      r.entry.Stack = decide (log.addStack ≤ lvl.toInt) := by
  obtain ⟨_, _, h3⟩ := Logger_log_sampled log lvl msg fields now h s hl hs hen
  rw [hfresh, IncCheckReset_zero] at h3
  exact h3 (by intro hc; have := hc.1; simp only [gt_iff_lt] at this; omega)

/-- At an enabled level, a formatted or key-value call of the sugared handle
is the structured call of its base logger, with the formatted message. -/
theorem SugaredLogger_log_enabled (s : zap.SugaredLogger) (fmt : Fmt) (lvl : zapcore.Level)
    (template : String) (fmtArgs : List Any) (context : List (String × Any)) (now : Nat)
    (h : Heap) (hen : s.base.core.Enabled lvl = true) :
    s.log fmt lvl template fmtArgs context now h
      = s.base.log lvl (zap.getMessage fmt template fmtArgs) (s.sweetenFields context) now h := by
  unfold zap.SugaredLogger.log zap.Logger.log
  rw [if_neg (by simp [hen])]

/-- Repeated structured method calls at a disabled level leave the heap as it
was. -/
theorem zapLogger_afterCalls_disabled (z : zapLogger) (fmt : Fmt) (sev : Severity) (msg : String)
    (fields : List Field) (times : List Nat) (h h2 : Heap)
    (hen : z.zl.core.Enabled sev.level = false)
    (hcalls : z.afterCalls fmt sev (.structured msg fields) times h = some h2) :
    h2 = h := by
  induction times generalizing h with
  | nil =>
    simp only [zapLogger.afterCalls, Option.some.injEq] at hcalls
    exact hcalls.symm
  | cons t rest ih =>
    simp only [zapLogger.afterCalls] at hcalls
    have e := (method_structured_disabled z fmt sev msg fields t h hen).2
    rw [e] at hcalls
    split at hcalls
    · exact ih h hcalls
    · cases hcalls

/-- Repeated structured method calls at an enabled level inside one tick that
has begun: the sampler's counter goes up by one at each of them. -/
theorem zapLogger_afterCalls_counter (z : zapLogger) (fmt : Fmt) (sev : Severity) (msg : String)
    (fields : List Field) (s : zapcore.Sampler) (resetAt : Nat) (times : List Nat)
    (h h2 : Heap) (k : Nat)
    (hs : z.zl.core.sampler = some s) (hp : s.counts < h.length)
    (hen : z.zl.core.Enabled sev.level = true)
    (hc : z.counter h sev.level msg = { resetAt := resetAt, counter := k })
    (ht : ∀ t ∈ times, t < resetAt)
    (hcalls : z.afterCalls fmt sev (.structured msg fields) times h = some h2) :
    h2.length = h.length ∧
    z.counter h2 sev.level msg = { resetAt := resetAt, counter := k + times.length } := by
  induction times generalizing h k with
  | nil =>
    simp only [zapLogger.afterCalls, Option.some.injEq] at hcalls
    subst hcalls
    exact ⟨rfl, by simpa using hc⟩
  | cons t rest ih =>
    simp only [zapLogger.afterCalls] at hcalls
    obtain ⟨e2, e3, _, _⟩ := method_structured_sampled z fmt sev msg fields t h s hs hp hen
    rw [hc, IncCheckReset_inside resetAt k t s.tick (ht t (List.mem_cons_self t rest))] at e3
    split at hcalls
    · obtain ⟨f2, f3⟩ := ih (z.call fmt sev (.structured msg fields) t h).2 (k + 1)
        (by rw [e2]; exact hp) e3
        (fun t1 ht1 => ht t1 (List.mem_cons_of_mem t ht1)) hcalls
      refine ⟨f2.trans e2, ?_⟩
      rw [f3]
      simp only [List.length_cons]
      congr 1
      omega
    · cases hcalls

/-- Repeated free functions do on the package variable `logger` what the
repeated method does on that facade; only the heap of the state moves. -/
theorem afterCalls_eq_method (fmt : Fmt) (sev : Severity) (a : Args) (times : List Nat)
    (w : World) :
    afterCalls fmt sev a times w
      = (w.logger.afterCalls fmt sev a times w.heap).map (fun h => { w with heap := h }) := by
  induction times generalizing w with
  | nil => simp [afterCalls, zapLogger.afterCalls]
  | cons t rest ih =>
    simp only [afterCalls, zapLogger.afterCalls]
    rw [call_eq_method]
    simp only []
    split
    · rw [ih]
    · rfl

/-! ## The claims -/

/-- C1, as stated, fails: the level string `dpanic` is none of the six names,
and the facade built from it has the threshold `DPanicLevel`, not `InfoLevel`. -/
theorem level_dpanic_is_not_info :
    "dpanic" ∉ ["debug", "info", "warn", "error", "panic", "fatal"] ∧
    ((newZapLogger stdEnv { NewOptions with Level := "dpanic" } []).1.value?.map
        zapLogger.threshold) = some DPanicLevel ∧
    ((newZapLogger stdEnv { NewOptions with Level := "dpanic" } []).1.value?.map
        zapLogger.threshold) ≠ some InfoLevel := by
  decide

/-- C1, amended: the threshold of the built engine is the severity `o.Level`
names when it is one of the six names; it is `info` for every string the
engine's `UnmarshalText` rejects, which are the strings whose lower case is
neither empty nor one of the seven level names of the engine; it is the
parsed level for every string the engine accepts; and a build that succeeds
does so with any other level string in its place. -/
theorem newZapLogger_threshold (env : Env) (o : Options) (h : Heap) (z : zapLogger) (h1 : Heap)
    (hb : newZapLogger env o h = (.returned z, h1)) :
    (o.Level = "debug" → z.threshold = DebugLevel) ∧
    (o.Level = "info" → z.threshold = InfoLevel) ∧
    (o.Level = "warn" → z.threshold = WarnLevel) ∧
    (o.Level = "error" → z.threshold = ErrorLevel) ∧
    (o.Level = "panic" → z.threshold = PanicLevel) ∧
    (o.Level = "fatal" → z.threshold = FatalLevel) ∧
    (zapcore.Level.UnmarshalText o.Level = none → z.threshold = InfoLevel) ∧
    (zapcore.ToLower o.Level ∉ ["", "debug", "info", "warn", "error", "dpanic", "panic", "fatal"] →
      z.threshold = InfoLevel) ∧
    (∀ l, zapcore.Level.UnmarshalText o.Level = some l → z.threshold = l) ∧
    (∀ s, (newZapLogger env { o with Level := s } h).1.value?.isSome = true) := by
  obtain ⟨_, hzl, _⟩ := newZapLogger_returned env o h z h1 hb
  have ht : z.threshold
      = (match zapcore.Level.UnmarshalText o.Level with
          | some l => l
          | none => InfoLevel) := by
    unfold zapLogger.threshold
    rw [hzl]
    rfl
  refine ⟨?_, ?_, ?_, ?_, ?_, ?_, ?_, ?_, ?_, ?_⟩
  · intro e; rw [ht, e]; decide
  · intro e; rw [ht, e]; decide
  · intro e; rw [ht, e]; decide
  · intro e; rw [ht, e]; decide
  · intro e; rw [ht, e]; decide
  · intro e; rw [ht, e]; decide
  · intro e; rw [ht, e]
  · intro e; rw [ht, (UnmarshalText_eq_none_iff o.Level).2 e]
  · intro l e; rw [ht, e]
  · intro s
    have key : (newZapLogger env { o with Level := s } h).1.value?.isSome
        = (newZapLogger env o h).1.value?.isSome := by
      rw [newZapLogger_isSome, newZapLogger_isSome, Build_isOk, Build_isOk,
        openSinks_congr env (loggerConfig { o with Level := s }) (loggerConfig o) rfl rfl]
      rfl
    rw [key, hb]
    rfl

/-- C1, an instance: built from the level string `bogus`, the facade has the
threshold `info`. -/
theorem newZapLogger_threshold_bogus :
    ((newZapLogger stdEnv { NewOptions with Level := "bogus" } []).1.value?.map
        zapLogger.threshold) = some InfoLevel := by
  obtain ⟨z, h1, hb⟩ : ∃ z h1,
      newZapLogger stdEnv { NewOptions with Level := "bogus" } [] = (.returned z, h1) :=
    ⟨_, _, rfl⟩
  obtain ⟨_, _, _, _, _, _, _, hlow, _⟩ := newZapLogger_threshold stdEnv _ [] z h1 hb
  have ht := hlow (by decide)
  rw [hb]
  simp [Outcome.value?, ht]

/-- C2: built from the name `svc`, the facade tags the record of `Info` with
`svc`, and the records of `Infof` and of `Infow` with the empty name: the
structured handle is named, the sugared handle is not. -/
theorem name_svc_on_structured_handle_only :
    ((firstCall stdEnv plainFmt { NewOptions with Name := "svc" } .Info
        (.structured "m" []) 0).map (fun ev => (written ev).map (fun r => r.entry.LoggerName))
      = some ["svc"]) ∧
    ((firstCall stdEnv plainFmt { NewOptions with Name := "svc" } .Info
        (.formatted "m" []) 0).map (fun ev => (written ev).map (fun r => r.entry.LoggerName))
      = some [""]) ∧
    ((firstCall stdEnv plainFmt { NewOptions with Name := "svc" } .Info
        (.keyvals "m" []) 0).map (fun ev => (written ev).map (fun r => r.entry.LoggerName))
      = some [""]) := by
  decide

/-- C3: whatever the facade (so whatever its threshold) and whatever the form
of the call, a `Panic` call ends in a panic and a `Fatal` call in an exit of
the process, through a method and through a free function alike, the line
functions `Panicln` and `Fatalln` included; it writes at most one record, none
when the level is disabled, and the record it writes comes before the panic or
the exit. -/
theorem Panic_and_Fatal_terminate (fmt : Fmt) (z : zapLogger) (a : Args) (args : List Any)
    (now : Nat) (h : Heap) (w : World) :
    (∃ (recs : List Record) (m : String), (z.call fmt .Panic a now h).1 = recs.map Event.write ++ [Event.panic (.msg m)] ∧
        outcome (z.call fmt .Panic a now h).1 = .panicked (.msg m) ∧
        recs.length ≤ 1 ∧
        (z.zl.core.Enabled PanicLevel = false ∧ z.sl.base.core.Enabled PanicLevel = false →
          recs = [])) ∧
    (∃ (recs : List Record), (z.call fmt .Fatal a now h).1 = recs.map Event.write ++ [Event.exit 1] ∧
        outcome (z.call fmt .Fatal a now h).1 = .exited 1 ∧
        recs.length ≤ 1 ∧
        (z.zl.core.Enabled FatalLevel = false ∧ z.sl.base.core.Enabled FatalLevel = false →
          recs = [])) ∧
    (∃ (recs : List Record) (m : String), (call fmt .Panic a now w).1 = recs.map Event.write ++ [Event.panic (.msg m)] ∧
        outcome (call fmt .Panic a now w).1 = .panicked (.msg m) ∧ recs.length ≤ 1) ∧
    (∃ (recs : List Record), (call fmt .Fatal a now w).1 = recs.map Event.write ++ [Event.exit 1] ∧
        outcome (call fmt .Fatal a now w).1 = .exited 1 ∧ recs.length ≤ 1) ∧
    (∃ (recs : List Record) (m : String),
        (callln fmt .Panic args now w).1 = recs.map Event.write ++ [Event.panic (.msg m)] ∧
        outcome (callln fmt .Panic args now w).1 = .panicked (.msg m) ∧ recs.length ≤ 1) ∧
    (∃ (recs : List Record),
        (callln fmt .Fatal args now w).1 = recs.map Event.write ++ [Event.exit 1] ∧
        outcome (callln fmt .Fatal args now w).1 = .exited 1 ∧ recs.length ≤ 1) := by
  have hP : ∀ (z : zapLogger) (h : Heap),
      ∃ (recs : List Record) (m : String), (z.call fmt .Panic a now h).1 = recs.map Event.write ++ [Event.panic (.msg m)] ∧
        outcome (z.call fmt .Panic a now h).1 = .panicked (.msg m) ∧
        recs.length ≤ 1 ∧
        (z.zl.core.Enabled PanicLevel = false ∧ z.sl.base.core.Enabled PanicLevel = false →
          recs = []) := by
    intro z h
    obtain ⟨log, msg, fields, hlog, hev | ⟨hev, hen⟩⟩ :=
      zapLogger_call_cases z fmt .Panic a now h
    · refine ⟨[], msg, ?_, ?_, by simp, fun _ => rfl⟩
      · rw [hev]; simp [Severity.level]
      · rw [hev]; simp [Severity.level, outcome]
    · refine ⟨written (z.call fmt .Panic a now h).1, msg, ?_, ?_, ?_, ?_⟩
      · rw [hev]; simp [Severity.level, written]
      · rw [hev]; simp [Severity.level, outcome]
      · rw [hev]; simp [Severity.level, written]
      · intro hd
        simp only [Severity.level] at hen
        rcases hlog with ⟨rfl, _⟩ | ⟨rfl, _⟩
        · rw [hd.1] at hen; cases hen
        · rw [hd.2] at hen; cases hen
  have hF : ∀ (z : zapLogger) (h : Heap),
      ∃ (recs : List Record), (z.call fmt .Fatal a now h).1 = recs.map Event.write ++ [Event.exit 1] ∧
        outcome (z.call fmt .Fatal a now h).1 = .exited 1 ∧
        recs.length ≤ 1 ∧
        (z.zl.core.Enabled FatalLevel = false ∧ z.sl.base.core.Enabled FatalLevel = false →
          recs = []) := by
    intro z h
    obtain ⟨log, msg, fields, hlog, hev | ⟨hev, hen⟩⟩ :=
      zapLogger_call_cases z fmt .Fatal a now h
    · refine ⟨[], ?_, ?_, by simp, fun _ => rfl⟩
      · rw [hev]; simp [Severity.level]
      · rw [hev]; simp [Severity.level, outcome]
    · refine ⟨written (z.call fmt .Fatal a now h).1, ?_, ?_, ?_, ?_⟩
      · rw [hev]; simp [Severity.level, written]
      · rw [hev]; simp [Severity.level, outcome]
      · rw [hev]; simp [Severity.level, written]
      · intro hd
        simp only [Severity.level] at hen
        rcases hlog with ⟨rfl, _⟩ | ⟨rfl, _⟩
        · rw [hd.1] at hen; cases hen
        · rw [hd.2] at hen; cases hen
  refine ⟨hP z h, hF z h, ?_, ?_, ?_, ?_⟩
  · obtain ⟨recs, m, h1, h2, h3, _⟩ := hP w.logger w.heap
    rw [call_eq_method]
    exact ⟨recs, m, h1, h2, h3⟩
  · obtain ⟨recs, h1, h2, h3, _⟩ := hF w.logger w.heap
    rw [call_eq_method]
    exact ⟨recs, h1, h2, h3⟩
  · obtain ⟨recs, hlen, hev⟩ := SugaredLogger_logln_cases w.logger.sl fmt PanicLevel args now
      w.heap (by decide)
    have e : (callln fmt .Panic args now w).1
        = (w.logger.sl.logln fmt PanicLevel args now w.heap).1 := rfl
    rw [e, hev]
    exact ⟨recs, zap.getMessageln fmt args, by simp, by simp [outcome], hlen⟩
  · obtain ⟨recs, hlen, hev⟩ := SugaredLogger_logln_cases w.logger.sl fmt FatalLevel args now
      w.heap (by decide)
    have e : (callln fmt .Fatal args now w).1
        = (w.logger.sl.logln fmt FatalLevel args now w.heap).1 := rfl
    rw [e, hev]
    exact ⟨recs, by simp, by simp [outcome], hlen⟩

/-- C4, as stated, fails: on the facade built from the default options, at the
threshold `info`, the first `Info("msg")` writes one record, and the 101st of
101 calls made at the same instant writes none; the same holds of the free
function `Info` on that facade as the default. -/
theorem Info_101st_call_writes_nothing :
    freshWorld.logger.threshold = InfoLevel ∧
    (written (freshWorld.logger.call plainFmt .Info (.structured "msg" []) 0
        freshWorld.heap).1).length = 1 ∧
    ((freshWorld.logger.afterCalls plainFmt .Info (.structured "msg" []) (List.replicate 100 0)
        freshWorld.heap).map
      (fun h => written (freshWorld.logger.call plainFmt .Info (.structured "msg" []) 0 h).1))
      = some [] ∧
    ((afterCalls plainFmt .Info (.structured "msg" []) (List.replicate 100 0) freshWorld).map
        (fun w => written (call plainFmt .Info (.structured "msg" []) 0 w).1)) = some [] := by
  decide

/-- C4, amended: on a facade just built from `o`, with threshold `T`, the
`n`-th of `n` identical method calls `L(msg)` whose times all lie less than
one second after the first writes exactly one record, of level `L` and message
`msg`, when `T <= L` and `n` is at most 100 or is 100 plus a multiple of 100;
otherwise it writes no record.  The free function `L` on a state whose
`logger` is that facade goes through the same calls and writes the same. -/
theorem gating_under_sampling (env : Env) (fmt : Fmt) (o : Options) (h : Heap) (z : zapLogger)
    (h1 : Heap) (sev : Severity) (msg : String) (fields : List Field) (times : List Nat)
    (now : Nat) (h2 : Heap)
    (hb : newZapLogger env o h = (.returned z, h1))
    (hcalls : z.afterCalls fmt sev (.structured msg fields) times h1 = some h2)
    (htick : ∀ t ∈ times ++ [now], t < times.headD now + 1000000000) :
    (z.threshold.toInt ≤ sev.level.toInt ∧
        (times.length + 1 ≤ 100 ∨ (times.length + 1 - 100) % 100 = 0) →
      ∃ r : Record, written (z.call fmt sev (.structured msg fields) now h2).1 = [r] ∧
        r.entry.Level = sev.level ∧ r.entry.Message = msg) ∧
    (¬ (z.threshold.toInt ≤ sev.level.toInt ∧
        (times.length + 1 ≤ 100 ∨ (times.length + 1 - 100) % 100 = 0)) →
      written (z.call fmt sev (.structured msg fields) now h2).1 = []) ∧
    (∀ w : World, w.logger = z → w.heap = h1 →
      afterCalls fmt sev (.structured msg fields) times w = some { w with heap := h2 } ∧
      written (call fmt sev (.structured msg fields) now { w with heap := h2 }).1
        = written (z.call fmt sev (.structured msg fields) now h2).1) := by
  obtain ⟨hheap, hzl, _⟩ := newZapLogger_returned env o h z h1 hb
  have hs : z.zl.core.sampler
      = some { counts := h.length, tick := 1000000000, first := 100, thereafter := 100 } := by
    rw [hzl]
  have hp : h.length < h1.length := by
    rw [hheap]; simp
  have hzero : z.counter h1 sev.level msg = { resetAt := 0, counter := 0 } := by
    unfold zapLogger.counter
    rw [hs]
    simp [hheap, List.getD, zapcore.counters.load]
  have hthr : z.zl.core.Enabled sev.level
      = decide (z.threshold.toInt ≤ sev.level.toInt) := rfl
  have hfree : ∀ w : World, w.logger = z → w.heap = h1 →
      afterCalls fmt sev (.structured msg fields) times w = some { w with heap := h2 } ∧
      written (call fmt sev (.structured msg fields) now { w with heap := h2 }).1
        = written (z.call fmt sev (.structured msg fields) now h2).1 := by
    intro w hw1 hw2
    refine ⟨?_, ?_⟩
    · rw [afterCalls_eq_method, hw1, hw2, hcalls]
      rfl
    · rw [call_eq_method]
      simp only [hw1]
  refine ⟨?_, ?_, hfree⟩ <;> clear hfree
  all_goals
    by_cases hT : z.threshold.toInt ≤ sev.level.toInt
  · have hen : z.zl.core.Enabled sev.level = true := by
      rw [hthr]; simpa using hT
    cases times with
    | nil =>
      simp only [zapLogger.afterCalls, Option.some.injEq] at hcalls
      subst hcalls
      obtain ⟨_, _, _, h5⟩ := method_structured_sampled z fmt sev msg fields now h1 _ hs hp hen
      rw [hzero, IncCheckReset_zero] at h5
      obtain ⟨r, hr1, hr2, hr3, _⟩ := h5 (by simp)
      exact fun _ => ⟨r, hr1, hr2, hr3⟩
    | cons t1 rest =>
      simp only [zapLogger.afterCalls] at hcalls
      obtain ⟨e2, e3, _, _⟩ := method_structured_sampled z fmt sev msg fields t1 h1 _ hs hp hen
      rw [hzero, IncCheckReset_zero] at e3
      simp only [List.headD_cons] at htick
      split at hcalls
      · obtain ⟨f2, f3⟩ := zapLogger_afterCalls_counter z fmt sev msg fields
          { counts := h.length, tick := 1000000000, first := 100, thereafter := 100 }
          (t1 + 1000000000) rest (z.call fmt sev (.structured msg fields) t1 h1).2 h2 1
          hs (by rw [e2]; exact hp) hen e3
          (fun t ht => htick t (by simp [ht])) hcalls
        obtain ⟨_, _, _, h5⟩ := method_structured_sampled z fmt sev msg fields now h2 _ hs
          (by rw [f2, e2]; exact hp) hen
        rw [f3, IncCheckReset_inside (t1 + 1000000000) (1 + rest.length) now 1000000000
          (htick now (by simp))] at h5
        simp only [List.length_cons] at h5 ⊢
        intro hc
        obtain ⟨r, hr1, hr2, hr3, _⟩ := h5 (by omega)
        exact ⟨r, hr1, hr2, hr3⟩
      · cases hcalls
  · exact fun hc => absurd hc.1 hT
  · have hen : z.zl.core.Enabled sev.level = true := by
      rw [hthr]; simpa using hT
    cases times with
    | nil =>
      exact fun hn => absurd ⟨hT, Or.inl (by simp)⟩ hn
    | cons t1 rest =>
      simp only [zapLogger.afterCalls] at hcalls
      obtain ⟨e2, e3, _, _⟩ := method_structured_sampled z fmt sev msg fields t1 h1 _ hs hp hen
      rw [hzero, IncCheckReset_zero] at e3
      simp only [List.headD_cons] at htick
      split at hcalls
      · obtain ⟨f2, f3⟩ := zapLogger_afterCalls_counter z fmt sev msg fields
          { counts := h.length, tick := 1000000000, first := 100, thereafter := 100 }
          (t1 + 1000000000) rest (z.call fmt sev (.structured msg fields) t1 h1).2 h2 1
          hs (by rw [e2]; exact hp) hen e3
          (fun t ht => htick t (by simp [ht])) hcalls
        obtain ⟨_, _, h4, _⟩ := method_structured_sampled z fmt sev msg fields now h2 _ hs
          (by rw [f2, e2]; exact hp) hen
        rw [f3, IncCheckReset_inside (t1 + 1000000000) (1 + rest.length) now 1000000000
          (htick now (by simp))] at h4
        simp only [List.length_cons] at h4 ⊢
        intro hn
        apply h4
        have hn2 : ¬ (rest.length + 1 + 1 ≤ 100 ∨ (rest.length + 1 + 1 - 100) % 100 = 0) :=
          fun hx => hn ⟨hT, hx⟩
        omega
      · cases hcalls
  · have hen : z.zl.core.Enabled sev.level = false := by
      rw [hthr]; simpa using hT
    have e := zapLogger_afterCalls_disabled z fmt sev msg fields times h1 h2 hen hcalls
    subst e
    exact fun _ => (method_structured_disabled z fmt sev msg fields now h2 hen).1

/-- C4, an instance: on the facade built from the level `warn`, the 101st of
101 `Warn("msg")` calls made at the same instant writes no record. -/
theorem gating_under_sampling_101st_Warn :
    (((Init stdEnv { NewOptions with Level := "warn" } freshWorld).2.logger.afterCalls plainFmt
        .Warn (.structured "msg" []) (List.replicate 100 0)
        (Init stdEnv { NewOptions with Level := "warn" } freshWorld).2.heap).map
      (fun h2 => written
        ((Init stdEnv { NewOptions with Level := "warn" } freshWorld).2.logger.call plainFmt
          .Warn (.structured "msg" []) 0 h2).1)) = some [] := by
  obtain ⟨h2, hcalls⟩ : ∃ h2,
      (Init stdEnv { NewOptions with Level := "warn" } freshWorld).2.logger.afterCalls plainFmt
        .Warn (.structured "msg" []) (List.replicate 100 0)
        (Init stdEnv { NewOptions with Level := "warn" } freshWorld).2.heap = some h2 :=
    ⟨_, rfl⟩
  have hw := (gating_under_sampling stdEnv plainFmt { NewOptions with Level := "warn" }
    freshWorld.heap (Init stdEnv { NewOptions with Level := "warn" } freshWorld).2.logger
    (Init stdEnv { NewOptions with Level := "warn" } freshWorld).2.heap .Warn "msg" []
    (List.replicate 100 0) 0 h2 rfl hcalls (by decide)).2.1 (by
      intro hc
      have := hc.2
      simp at this)
  rw [hcalls]
  simp [hw]

/-- C5: `newZapLogger` selects the coloured level encoder exactly when the
format is the console one and colour is enabled, and the plain one otherwise;
the built engine carries the selected encoder on both handles, and when the
plain one is selected no record of the facade has an escape character in its
rendered level. -/
theorem encodeLevel_selection (o : Options) :
    ((loggerConfig o).EncoderConfig.EncodeLevel = .CapitalColorLevelEncoder ↔
        (o.Format = consoleFormat ∧ o.EnableColor = true)) ∧
    ((loggerConfig o).EncoderConfig.EncodeLevel = .CapitalLevelEncoder ↔
        ¬ (o.Format = consoleFormat ∧ o.EnableColor = true)) ∧
    (∀ (env : Env) (h : Heap) (z : zapLogger) (h1 : Heap),
        newZapLogger env o h = (.returned z, h1) →
        z.zl.core.encoderConfig.EncodeLevel = (loggerConfig o).EncoderConfig.EncodeLevel ∧
        z.sl.base.core.encoderConfig.EncodeLevel = (loggerConfig o).EncoderConfig.EncodeLevel ∧
        (¬ (o.Format = consoleFormat ∧ o.EnableColor = true) →
          ∀ (fmt : Fmt) (sev : Severity) (a : Args) (now : Nat) (h2 : Heap) (r : Record),
            r ∈ written (z.call fmt sev a now h2).1 → zapcore.escape ∉ r.level.data)) := by
  have hsel : (loggerConfig o).EncoderConfig.EncodeLevel
      = if o.Format = consoleFormat ∧ o.EnableColor = true then .CapitalColorLevelEncoder
        else .CapitalLevelEncoder := rfl
  refine ⟨?_, ?_, ?_⟩
  · rw [hsel]
    by_cases hc : o.Format = consoleFormat ∧ o.EnableColor = true
    · simp [hc]
    · rw [if_neg hc]; simp [hc]
  · rw [hsel]
    by_cases hc : o.Format = consoleFormat ∧ o.EnableColor = true
    · rw [if_pos hc]; simp [hc]
    · rw [if_neg hc]; simp [hc]
  · intro env h z h1 hb
    obtain ⟨_, hzl, hsl⟩ := newZapLogger_returned env o h z h1 hb
    have e1 : z.zl.core.encoderConfig.EncodeLevel
        = (loggerConfig o).EncoderConfig.EncodeLevel := by rw [hzl]
    have e2 : z.sl.base.core.encoderConfig.EncodeLevel
        = (loggerConfig o).EncoderConfig.EncodeLevel := by rw [hsl, hzl]
    refine ⟨e1, e2, ?_⟩
    intro hc fmt sev a now h2 r hr
    have hplain : (loggerConfig o).EncoderConfig.EncodeLevel = .CapitalLevelEncoder := by
      rw [hsel, if_neg hc]
    obtain ⟨log, hlog, _, _, _, _, hlevel, _⟩ := zapLogger_call_written z fmt sev a now h2 r hr
    have hl : log.core.encoderConfig.EncodeLevel = .CapitalLevelEncoder := by
      rcases hlog with ⟨rfl, _⟩ | ⟨rfl, _⟩
      · rw [e1, hplain]
      · rw [e2, hplain]
    rw [hlevel, hl]
    exact CapitalLevelEncoder_no_escape sev.level

/-- C5, an instance: with the format `json` and colour enabled, the build
succeeds and the engine has the plain level encoder. -/
theorem encodeLevel_selection_json :
    ((newZapLogger stdEnv { NewOptions with Format := "json" } []).1.value?.map
        (fun z => z.zl.core.encoderConfig.EncodeLevel)) = some .CapitalLevelEncoder := by
  obtain ⟨z, h1, hb⟩ : ∃ z h1,
      newZapLogger stdEnv { NewOptions with Format := "json" } [] = (.returned z, h1) :=
    ⟨_, _, rfl⟩
  have hsel := encodeLevel_selection { NewOptions with Format := "json" }
  have hz := (hsel.2.2 stdEnv [] z h1 hb).1
  have hp := hsel.2.1.2 (by decide)
  rw [hb]
  simp [Outcome.value?, hz, hp]

/-- C6: whatever `DisableStacktrace` and `Development`, both handles of the
built facade take stacks from `PanicLevel` on; a record of the facade has a
stack exactly when its level is `PanicLevel` or above; the first call on the
built facade at a severity the threshold lets through, in any form, does write
its record, with a stack for `Panic` and `Fatal` and without one below; and
built without the option `AddStacktrace(PanicLevel)`, the engine would take
its stack level from the two flags. -/
theorem stacktrace_from_panic (env : Env) (o : Options) (h : Heap) (z : zapLogger) (h1 : Heap)
    (hb : newZapLogger env o h = (.returned z, h1)) :
    z.zl.addStack = PanicLevel.toInt ∧
    z.sl.base.addStack = PanicLevel.toInt ∧
    (∀ (fmt : Fmt) (sev : Severity) (a : Args) (now : Nat) (h2 : Heap) (r : Record),
        r ∈ written (z.call fmt sev a now h2).1 →
        (r.entry.Stack = true ↔ PanicLevel.toInt ≤ r.entry.Level.toInt)) ∧
    (∀ (fmt : Fmt) (sev : Severity) (a : Args) (now : Nat),
        z.threshold.toInt ≤ sev.level.toInt →
        ∃ r : Record, written (z.call fmt sev a now h1).1 = [r] ∧
          r.entry.Level = sev.level ∧
          r.entry.Stack = decide (sev = .Panic ∨ sev = .Fatal)) ∧
    (∀ (l0 : zap.Logger) (h0 : Heap), (loggerConfig o).Build env [] h = .ok (l0, h0) →
        l0.addStack = (if o.DisableStacktrace then FatalLevel.toInt + 1
                       else if o.Development then WarnLevel.toInt else ErrorLevel.toInt)) := by
  obtain ⟨hheap, hzl, hsl⟩ := newZapLogger_returned env o h z h1 hb
  have e1 : z.zl.addStack = PanicLevel.toInt := by rw [hzl]; rfl
  have e2 : z.sl.base.addStack = PanicLevel.toInt := by rw [hsl, hzl]; rfl
  refine ⟨e1, e2, ?_, ?_, fun l0 h0 hb0 => Build_without_options env o h l0 h0 hb0⟩
  · intro fmt sev a now h2 r hr
    obtain ⟨log, hlog, _, hlvl, _, hstack, _, _⟩ := zapLogger_call_written z fmt sev a now h2 r hr
    have hl : log.addStack = PanicLevel.toInt := by
      rcases hlog with ⟨rfl, _⟩ | ⟨rfl, _⟩
      · exact e1
      · exact e2
    rw [hstack, hlvl, hl]
    simp
  · intro fmt sev a now hT
    have hs : z.zl.core.sampler
        = some { counts := h.length, tick := 1000000000, first := 100, thereafter := 100 } := by
      rw [hzl]
    have hcore : z.sl.base.core = z.zl.core := by rw [hsl]
    have hen : z.zl.core.Enabled sev.level = true := by
      have : z.zl.core.Enabled sev.level = decide (z.threshold.toInt ≤ sev.level.toInt) := rfl
      rw [this]; simpa using hT
    have hfresh : ∀ m : String,
        ((h1.getD h.length []).load (zapcore.levelIndex sev.level)
          (zapcore.fnv32a m % zapcore._countersPerLevel)) = { resetAt := 0, counter := 0 } := by
      intro m
      simp [hheap, List.getD, zapcore.counters.load]
    have hstk : ∀ b : Int, b = PanicLevel.toInt →
        decide (b ≤ sev.level.toInt) = decide (sev = .Panic ∨ sev = .Fatal) := by
      intro b hb4
      subst hb4
      cases sev <;> simp [Severity.level, zapcore.Level.toInt]
    rw [zapLogger_call_eq]
    cases a with
    | structured m fs =>
      obtain ⟨r, hr1, hr2, _, _, hr5⟩ := Logger_log_fresh z.zl sev.level m fs now h1 _
        (Severity_level_ne_DPanic sev) hs hen (hfresh m) (by simp)
      exact ⟨r, hr1, hr2, by rw [hr5, hstk _ e1]⟩
    | formatted f v =>
      simp only []
      rw [SugaredLogger_log_enabled z.sl fmt sev.level f v [] now h1 (by rw [hcore]; exact hen)]
      obtain ⟨r, hr1, hr2, _, _, hr5⟩ := Logger_log_fresh z.sl.base sev.level
        (zap.getMessage fmt f v) (z.sl.sweetenFields []) now h1 _
        (Severity_level_ne_DPanic sev) (by rw [hcore]; exact hs) (by rw [hcore]; exact hen)
        (hfresh _) (by simp)
      exact ⟨r, hr1, hr2, by rw [hr5, hstk _ e2]⟩
    | keyvals m kvs =>
      simp only []
      rw [SugaredLogger_log_enabled z.sl fmt sev.level m [] kvs now h1 (by rw [hcore]; exact hen)]
      obtain ⟨r, hr1, hr2, _, _, hr5⟩ := Logger_log_fresh z.sl.base sev.level
        (zap.getMessage fmt m []) (z.sl.sweetenFields kvs) now h1 _
        (Severity_level_ne_DPanic sev) (by rw [hcore]; exact hs) (by rw [hcore]; exact hen)
        (hfresh _) (by simp)
      exact ⟨r, hr1, hr2, by rw [hr5, hstk _ e2]⟩

/-- C6, an instance: with stack traces disabled in the options, both handles
of the built facade take stacks from `PanicLevel` (4) on, and the record of
the first `Panic("m")` on the facade is written with a stack. -/
theorem stacktrace_from_panic_disabled :
    ((newZapLogger stdEnv { NewOptions with DisableStacktrace := true } []).1.value?.map
        (fun z => (z.zl.addStack, z.sl.base.addStack))) = some (4, 4) ∧
    ((firstCall stdEnv plainFmt { NewOptions with DisableStacktrace := true } .Panic
        (.structured "m" []) 0).map
      (fun ev => (written ev).map (fun r => (r.entry.Level, r.entry.Stack))))
      = some [(PanicLevel, true)] := by
  obtain ⟨z, h1, hb⟩ : ∃ z h1,
      newZapLogger stdEnv { NewOptions with DisableStacktrace := true } [] = (.returned z, h1) :=
    ⟨_, _, rfl⟩
  have hs := stacktrace_from_panic stdEnv _ [] z h1 hb
  have hthr : z.threshold = InfoLevel := by
    obtain ⟨_, hzl, _⟩ := newZapLogger_returned stdEnv _ [] z h1 hb
    unfold zapLogger.threshold
    rw [hzl]
    decide
  obtain ⟨r, hr1, hr2, hr3⟩ := hs.2.2.2.1 plainFmt .Panic (.structured "m" []) 0
    (by rw [hthr]; decide)
  refine ⟨?_, ?_⟩
  · rw [hb]
    simp [Outcome.value?, hs.1, hs.2.1, zapcore.Level.toInt]
  · unfold firstCall
    rw [hb]
    simp [hr1, hr2, hr3, Severity.level]

/-- C7: when `Init(o)` returns, the package variable `logger` is the facade
`New(o)` returns from the same state, and nothing else of the state differs;
each free function then does what the method of the same name does on that
facade; `New(o)` leaves `logger` and `mu` as they were; and a process starts
with `logger` built from `NewOptions()`. -/
theorem Init_installs_New (env : Env) (fmt : Fmt) (o : Options) (w w1 : World)
    (hinit : Init env o w = (.returned (), w1)) :
    New env o w = (.returned w1.logger, { w with heap := w1.heap }) ∧
    w1.mu = w.mu ∧
    (∀ (sev : Severity) (a : Args) (now : Nat),
        call fmt sev a now w1
          = ((w1.logger.call fmt sev a now w1.heap).1,
             { w1 with heap := (w1.logger.call fmt sev a now w1.heap).2 })) ∧
    (∀ o2 : Options, (New env o2 w).2.logger = w.logger ∧ (New env o2 w).2.mu = w.mu) ∧
    (∃ w0 : World, initWorld env = .returned w0 ∧
        newZapLogger env NewOptions [] = (.returned w0.logger, w0.heap) ∧
        ∀ (sev : Severity) (a : Args) (now : Nat),
          call fmt sev a now w0
            = ((w0.logger.call fmt sev a now w0.heap).1,
               { w0 with heap := (w0.logger.call fmt sev a now w0.heap).2 })) := by
  refine ⟨?_, ?_, fun sev a now => call_eq_method fmt sev a now w1, fun o2 => ⟨rfl, rfl⟩, ?_⟩
  · unfold Init at hinit
    unfold New
    by_cases hmu : w.mu = true
    · rw [if_pos hmu] at hinit; cases hinit
    · rw [if_neg hmu] at hinit
      simp only [] at hinit
      generalize newZapLogger env o w.heap = r at hinit ⊢
      obtain ⟨oc, h2⟩ := r
      cases oc <;> simp at hinit
      subst hinit
      rfl
  · unfold Init at hinit
    by_cases hmu : w.mu = true
    · rw [if_pos hmu] at hinit; cases hinit
    · rw [if_neg hmu] at hinit
      simp only [] at hinit
      generalize newZapLogger env o w.heap = r at hinit
      obtain ⟨oc, h2⟩ := r
      cases oc <;> simp at hinit
      subst hinit
      simpa using hmu
  · have hok : (newZapLogger env NewOptions []).1.value?.isSome = true := by
      rw [newZapLogger_isSome, Build_isOk]
      rfl
    unfold initWorld
    generalize newZapLogger env NewOptions [] = r at hok ⊢
    obtain ⟨oc, h2⟩ := r
    cases oc with
    | returned z =>
      exact ⟨_, rfl, rfl, fun sev a now => call_eq_method fmt sev a now _⟩
    | panicked v => simp [Outcome.value?] at hok
    | exited c => simp [Outcome.value?] at hok
    | blocked => simp [Outcome.value?] at hok

/-- C7, an instance: in a fresh process, `Init` with the level `debug`
returns, and `New` with these options returns the facade that `Init` left in
`logger`. -/
theorem Init_installs_New_debug :
    New stdEnv { NewOptions with Level := "debug" } freshWorld
      = (.returned (Init stdEnv { NewOptions with Level := "debug" } freshWorld).2.logger,
         { freshWorld with
            heap := (Init stdEnv { NewOptions with Level := "debug" } freshWorld).2.heap }) :=
  (Init_installs_New stdEnv plainFmt { NewOptions with Level := "debug" } freshWorld
    (Init stdEnv { NewOptions with Level := "debug" } freshWorld).2 rfl).1

/-- C8, as stated, fails: with the unregistered format `xml`, `Init` in a
fresh process ends in a panic that carries the build error, not in an exit of
the process, and a caller that recovers goes on with that error in hand. -/
theorem Init_xml_panics_recoverably :
    (Init stdEnv { NewOptions with Format := "xml" } freshWorld).1
      = .panicked (.err (.noEncoderRegistered "xml")) ∧
    (Init stdEnv { NewOptions with Format := "xml" } freshWorld).1 ≠ .exited 1 ∧
    Recover (Init stdEnv { NewOptions with Format := "xml" } freshWorld).1
      = .returned (some (.err (.noEncoderRegistered "xml"))) := by
  decide

/-- C8, amended: when the engine build fails, `newZapLogger`, `New` and
`Init` (on an unlocked mutex) return neither a logger nor an error value: they
panic with the build error; the deferred unlock of `Init` runs all the same,
and a caller can recover the panic. -/
theorem build_failure_panics (env : Env) (o : Options) (w : World) (e : BuildError)
    (hfail : (loggerConfig o).Build env [.AddStacktrace PanicLevel, .AddCallerSkip 1] w.heap
      = .error e) :
    newZapLogger env o w.heap = (.panicked (.err e), w.heap) ∧
    New env o w = (.panicked (.err e), w) ∧
    (w.mu = false →
      (Init env o w).1 = .panicked (.err e) ∧ (Init env o w).2.mu = false) ∧
    Recover (.panicked (.err e)) = .returned (some (.err e)) := by
  have hp := newZapLogger_panicked env o w.heap e hfail
  refine ⟨hp, ?_, ?_, rfl⟩
  · unfold New
    rw [hp]
  · intro hmu
    unfold Init
    simp [hmu, hp]

/-- C8, an instance: a destination that does not open makes `New` panic with
the error that names it. -/
theorem build_failure_panics_unopenable :
    New stdEnv { NewOptions with OutputPaths := ["/no/such/dir/app.log"] } freshWorld
      = (.panicked (.err (.openSinks ["/no/such/dir/app.log"])), freshWorld) :=
  (build_failure_panics stdEnv { NewOptions with OutputPaths := ["/no/such/dir/app.log"] }
    freshWorld (.openSinks ["/no/such/dir/app.log"]) rfl).2.1

/-- C10: when the engine build fails, `Init` on an unlocked mutex panics
with the build error and leaves the whole state as it was, `logger` unchanged
and `mu` unlocked; so a free function called afterwards does what it would
have done before, and a second `Init` does not block. -/
theorem Init_failure_keeps_state (env : Env) (o : Options) (w : World) (e : BuildError)
    (hmu : w.mu = false)
    (hfail : (loggerConfig o).Build env [.AddStacktrace PanicLevel, .AddCallerSkip 1] w.heap
      = .error e) :
    Init env o w = (.panicked (.err e), w) ∧
    (Init env o w).2.logger = w.logger ∧
    (Init env o w).2.mu = false ∧
    (∀ (fmt : Fmt) (sev : Severity) (a : Args) (now : Nat),
        call fmt sev a now (Init env o w).2 = call fmt sev a now w) ∧
    (∀ o2 : Options, (Init env o2 (Init env o w).2).1 ≠ .blocked) := by
  have hp := newZapLogger_panicked env o w.heap e hfail
  have hi : Init env o w = (.panicked (.err e), w) := by
    unfold Init
    simp only [hmu, Bool.false_eq_true, if_false, hp]
    congr 1
    obtain ⟨l, m, hp⟩ := w
    simp only at hmu
    subst hmu
    rfl
  refine ⟨hi, by rw [hi], by rw [hi]; exact hmu, fun fmt sev a now => by rw [hi], ?_⟩
  intro o2
  rw [hi]
  unfold Init
  simp only [hmu, Bool.false_eq_true, if_false]
  have hnb := newZapLogger_not_blocked env o2 w.heap
  generalize newZapLogger env o2 w.heap = r at hnb ⊢
  obtain ⟨oc, h2⟩ := r
  cases oc <;> simp at hnb ⊢

/-- C10, an instance: in a fresh process, `Init` with the unregistered format
`xml` panics and leaves the state as it was. -/
theorem Init_failure_keeps_state_xml :
    Init stdEnv { NewOptions with Format := "xml" } freshWorld
      = (.panicked (.err (.noEncoderRegistered "xml")), freshWorld) :=
  (Init_failure_keeps_state stdEnv { NewOptions with Format := "xml" } freshWorld
    (.noEncoderRegistered "xml") (by decide) rfl).1

end zlog
